import Mathlib

/-!
Shallow embedding of the DMSA union-filesystem FUSE wrapper
(`src/DMSAApp/DMSAService/VFS/fuse_wrapper.c`) and verification of the
frozen specification claims.

The embedding models:
* backing paths and `join_path` string normalization,
* the host filesystem as an association list from absolute backing paths
  to stat records (with file contents),
* the global mount state (`g_state`), the three mask sets
  (evicting, pending-delete, syncing), and the open-slot counter,
* the FUSE operation handlers (`dmsa_getattr`, `dmsa_readdir`,
  `dmsa_open`, `dmsa_create`, `dmsa_unlink`, `dmsa_rmdir`,
  `dmsa_rename`, `dmsa_truncate`, `dmsa_write`, `dmsa_release`).

Syscall failures that the C code observes through `errno` are modelled
with explicit fault-injection flags (e.g. the external `unlink` failing
with a permission error), mirroring the harness instrumentation the
spec itself prescribes for the delete scenarios.
-/

namespace DMSA

/-! ## Constants from the source -/

def MAX_EVICTING : Nat := 256

def PENDING_DELETE_SIZE : Nat := 1024

def SYNCING_FILES_SIZE : Nat := 1024

def MAX_CONCURRENT_OPENS : Int := 256

def MAX_READDIR_ENTRIES : Nat := 8192

def MAX_PATH_DEPTH : Nat := 40

def COPY_CHUNK : Nat := 8192

def EPERM : Int := 1

def ENOENT : Int := 2

def EBADF : Int := 9

def EACCES : Int := 13

def EBUSY : Int := 16

def EMFILE : Int := 24

def EROFS : Int := 30

def ELOOP : Int := 62

def S_IFMT : Nat := 0o170000

def S_IFDIR : Nat := 0o040000

def S_IFREG : Nat := 0o100000

def S_IXUSR : Nat := 0o100

def S_ISDIR (m : Nat) : Bool := m &&& S_IFMT == S_IFDIR

def S_ISREG (m : Nat) : Bool := m &&& S_IFMT == S_IFREG

/-- The service process runs as root, so files it creates on the backing
store are owned by uid 0 / gid 0 until `fix_ownership` changes them. -/
def PROC_UID : Nat := 0

def PROC_GID : Nat := 0

/-! ## Path primitives (`join_path`, `path_depth`, virtual path building) -/

/-- Drop every leading `/` character (the `while (*path == '/') path++;`
loop of `join_path`). -/
def stripLead : List Char → List Char
  | [] => []
  | c :: cs => if c = '/' then stripLead cs else c :: cs

/-- Drop every trailing `/` character (the trailing-separator trim of
`join_path`). -/
def stripTrail (l : List Char) : List Char :=
  (l.reverse.dropWhile (fun c => c == '/')).reverse

/-- `join_path(base, path)`: trailing separators of `base` and leading
separators of `path` removed, joined with exactly one `/`. -/
def join_path (base p : String) : String :=
  ⟨stripTrail base.data ++ '/' :: stripLead p.data⟩

/-- `path_depth`: number of `/` characters, with `""` and `"/"` having
depth 0. -/
def path_depth (p : String) : Nat :=
  if p.data = [] then 0
  else if p.data = ['/'] then 0
  else p.data.countP (fun c => c == '/')

/-- The full virtual path that `dmsa_readdir` builds for an entry name
(`"/%s"` under the root, `"%s/%s"` otherwise). -/
def buildVPath (dir name : String) : String :=
  if dir == "/" then ⟨'/' :: name.data⟩ else ⟨dir.data ++ '/' :: name.data⟩

/-- `dirname(3)`-style parent of an absolute path, used by
`ensure_parent_directory` and the external-rename `mkdir`. -/
def dirnameData (p : List Char) : List Char :=
  let r := ((p.reverse.dropWhile (fun c => c != '/')).drop 1).reverse
  if r = [] then ['/'] else r

/-- The proper prefixes at which the recursive-create loop of
`ensure_parent_directory` truncates the path (one per interior `/`). -/
def slashPrefixes (s : List Char) : List (List Char) :=
  (List.range s.length).filterMap
    (fun i => if 0 < i ∧ s.get? i = some '/' then some (s.take i) else none)

/-- `should_exclude`: host-OS metadata names hidden from listings. -/
def should_exclude (name : String) : Bool :=
  name == ".DS_Store" || name == ".Spotlight-V100" || name == ".Trashes" ||
  name == ".fseventsd" || name == ".TemporaryItems" || name == ".FUSE" ||
  name.data.take 2 == ['.', '_']

/-! ## Host filesystem model -/

/-- A backing `struct stat` together with the file bytes. -/
structure StatData where
  st_mode : Nat
  st_uid : Nat
  st_gid : Nat
  st_size : Nat
  st_nlink : Nat
  st_atime : Int
  st_mtime : Int
  st_ctime : Int
  content : List Nat
deriving Repr, DecidableEq

/-- The host filesystem: an association list from absolute backing paths
to stat records. -/
structure HostFS where
  entries : List (String × StatData)
deriving Repr, DecidableEq

/-- `stat(2)` on the host: look the path up. -/
def hstat (h : HostFS) (p : String) : Option StatData :=
  (h.entries.find? (fun e => e.1 == p)).map (fun e => e.2)

/-- Create or replace the entry at `p`. -/
def hset (h : HostFS) (p : String) (s : StatData) : HostFS :=
  ⟨h.entries.filter (fun e => e.1 != p) ++ [(p, s)]⟩

/-- Remove every entry at `p` (`unlink`/`rmdir` success). -/
def hremove (h : HostFS) (p : String) : HostFS :=
  ⟨h.entries.filter (fun e => e.1 != p)⟩

/-- The stat record of a fresh regular file created by the service
process with the given `open` mode argument. -/
def mkFileStat (mode : Nat) (content : List Nat) : StatData :=
  { st_mode := S_IFREG ||| (mode &&& 0o7777)
    st_uid := PROC_UID
    st_gid := PROC_GID
    st_size := content.length
    st_nlink := 1
    st_atime := 0
    st_mtime := 0
    st_ctime := 0
    content := content }

/-- The stat record of a fresh directory created with `mkdir(path, mode)`. -/
def mkDirStat (mode : Nat) : StatData :=
  { st_mode := S_IFDIR ||| (mode &&& 0o7777)
    st_uid := PROC_UID
    st_gid := PROC_GID
    st_size := 0
    st_nlink := 2
    st_atime := 0
    st_mtime := 0
    st_ctime := 0
    content := [] }

/-- Entry names of the backing directory `dir`: every stored path that is
directly below `dir` contributes its final component. -/
def childName (dir q : String) : Option String :=
  let d := stripTrail dir.data
  if (d ++ ['/']).isPrefixOf q.data then
    let rest := q.data.drop (d.length + 1)
    if !rest.isEmpty && rest.all (fun c => c != '/') then some ⟨rest⟩ else none
  else none

/-- What `opendir`/`readdir(3)` yields for the backing directory `dir`
(apart from `.` and `..`, which the handlers skip anyway). -/
def dirEntries (h : HostFS) (dir : String) : List String :=
  h.entries.filterMap (fun e => childName dir e.1)

/-! ## Basic host-filesystem lemmas -/

theorem hstat_hset_self (h : HostFS) (p : String) (s : StatData) :
    hstat (hset h p s) p = some s := by
  unfold hstat hset
  induction h.entries with
  | nil => simp
  | cons e es ih =>
    by_cases hp : e.1 = p
    · simp [List.filter, hp, List.find?, ih]
    · simp only [List.filter, List.find?]
      have h1 : (e.1 != p) = true := by simp [bne, hp]
      have h2 : (e.1 == p) = false := by simp [hp]
      simp [h1, h2, ih]

theorem hstat_hset_other (h : HostFS) (p q : String) (s : StatData) (hne : q ≠ p) :
    hstat (hset h p s) q = hstat h q := by
  unfold hstat hset
  have hpq : (p == q) = false := by simp [Ne.symm hne]
  induction h.entries with
  | nil => simp [List.find?, hpq]
  | cons e es ih =>
    by_cases hp : e.1 = p
    · have h1 : (e.1 != p) = false := by simp [bne, hp]
      have h2 : (e.1 == q) = false := by simp [hp, Ne.symm hne]
      simp only [List.filter, h1, List.find?, h2]
      exact ih
    · have h1 : (e.1 != p) = true := by simp [bne, hp]
      by_cases hq : e.1 = q
      · have h2 : (e.1 == q) = true := by simp [hq]
        simp [List.filter, h1, List.find?, h2]
      · have h2 : (e.1 == q) = false := by simp [hq]
        simp only [List.filter, h1, List.find?, h2, cond_true, cond_false]
        exact ih

theorem hstat_hremove_self (h : HostFS) (p : String) :
    hstat (hremove h p) p = none := by
  unfold hstat hremove
  induction h.entries with
  | nil => simp
  | cons e es ih =>
    by_cases hp : e.1 = p
    · have h1 : (e.1 != p) = false := by simp [bne, hp]
      simp only [List.filter, h1, cond_false]
      exact ih
    · have h1 : (e.1 != p) = true := by simp [bne, hp]
      have h2 : (e.1 == p) = false := by simp [hp]
      simp only [List.filter, h1, cond_true, List.find?, h2]
      exact ih

theorem hstat_hremove_other (h : HostFS) (p q : String) (hne : q ≠ p) :
    hstat (hremove h p) q = hstat h q := by
  unfold hstat hremove
  induction h.entries with
  | nil => simp
  | cons e es ih =>
    by_cases hp : e.1 = p
    · have h1 : (e.1 != p) = false := by simp [bne, hp]
      have h2 : (e.1 == q) = false := by simp [hp, Ne.symm hne]
      simp only [List.filter, h1, cond_false, List.find?, h2]
      exact ih
    · have h1 : (e.1 != p) = true := by simp [bne, hp]
      by_cases hq : e.1 = q
      · have h2 : (e.1 == q) = true := by simp [hq]
        simp [List.filter, h1, List.find?, h2]
      · have h2 : (e.1 == q) = false := by simp [hq]
        simp only [List.filter, h1, cond_true, List.find?, h2]
        exact ih

/-! ## Global mount state and mask sets -/

/-- The mutable part of `g_state` together with the three mask sets and
the open-slot counter. -/
structure FuseState where
  local_dir : String
  external_dir : Option String
  external_offline : Bool
  readonly : Bool
  index_ready : Bool
  owner_uid : Nat
  owner_gid : Nat
  evicting : List String
  pending_delete : List String
  syncing_files : List String
  open_count : Int
deriving Repr, DecidableEq

/-- `is_evicting`: linear membership scan of the eviction mask. -/
def is_evicting (st : FuseState) (p : String) : Bool :=
  st.evicting.contains p

/-- `pending_delete_add`: dedup, FIFO-evict the oldest entry at capacity,
then append. -/
def pending_delete_add (l : List String) (p : String) : List String :=
  if l.contains p then l
  else if PENDING_DELETE_SIZE ≤ l.length then l.drop 1 ++ [p]
  else l ++ [p]

/-- Remove the first occurrence (the `memmove` compaction loop of
`pending_delete_remove` / `syncing_files_remove`). -/
def list_remove_first (l : List String) (p : String) : List String :=
  match l with
  | [] => []
  | x :: xs => if x == p then xs else x :: list_remove_first xs p

def pending_delete_contains (l : List String) (p : String) : Bool :=
  l.contains p

def pending_delete_remove (l : List String) (p : String) : List String :=
  list_remove_first l p

def syncing_files_contains (l : List String) (p : String) : Bool :=
  l.contains p

def syncing_files_remove (l : List String) (p : String) : List String :=
  list_remove_first l p

/-- `syncing_files_add`: dedup, FIFO-evict the oldest entry at capacity,
then append. -/
def syncing_files_add (l : List String) (p : String) : List String :=
  if l.contains p then l
  else if SYNCING_FILES_SIZE ≤ l.length then l.drop 1 ++ [p]
  else l ++ [p]

/-! ## Open-slot limiter -/

/-- `acquire_open_slot`: fail at the ceiling, otherwise increment. -/
def acquire_open_slot (c : Int) : Option Int :=
  if MAX_CONCURRENT_OPENS ≤ c then none else some (c + 1)

/-- `release_open_slot`: decrement, saturating at zero. -/
def release_open_slot (c : Int) : Int :=
  if 0 < c then c - 1 else c

/-! ## Path resolver -/

def get_local_path (st : FuseState) (p : String) : String :=
  join_path st.local_dir p

def get_external_path (st : FuseState) (p : String) : Option String :=
  match st.external_dir with
  | none => none
  | some e => if st.external_offline then none else some (join_path e p)

/-- `resolve_actual_path`: local tier first (unless evicting), then the
external tier, else none. -/
def resolve_actual_path (h : HostFS) (st : FuseState) (p : String) : Option String :=
  let localTry : Option String :=
    if is_evicting st p then none
    else
      let lp := get_local_path st p
      if (hstat h lp).isSome then some lp else none
  match localTry with
  | some lp => some lp
  | none =>
    match get_external_path st p with
    | some ep => if (hstat h ep).isSome then some ep else none
    | none => none

/-! ## Ownership fixing and parent-directory creation -/

/-- `fix_ownership`: `lchown` the path to the mount owner when the owner
is known (non-zero). -/
def fix_ownership (uid gid : Nat) (h : HostFS) (p : String) : HostFS :=
  if uid != 0 || gid != 0 then
    match hstat h p with
    | some s => hset h p { s with st_uid := uid, st_gid := gid }
    | none => h
  else h

/-- `ensure_parent_directory`: no-op when the immediate parent exists,
otherwise `mkdir` every missing proper prefix (mode 0755, ownership
fixed to the mount owner). -/
def ensure_parent_directory (uid gid : Nat) (h : HostFS) (path : String) : HostFS :=
  if (hstat h ⟨dirnameData path.data⟩).isSome then h
  else
    (slashPrefixes path.data).foldl
      (fun acc q =>
        if (hstat acc ⟨q⟩).isSome then acc
        else fix_ownership uid gid (hset acc ⟨q⟩ (mkDirStat 0o755)) ⟨q⟩)
      h

/-! ## Copy-up engine -/

/-- The 8 KiB chunked read/write loop shared by the three copy-up sites. -/
def copyChunks (src : List Nat) : List Nat :=
  if hs : src = [] then []
  else src.take COPY_CHUNK ++ copyChunks (src.drop COPY_CHUNK)
termination_by src.length
decreasing_by
  simp only [List.length_drop]
  have : 0 < src.length := List.length_pos.mpr hs
  simp [COPY_CHUNK]
  omega

theorem copyChunks_eq (src : List Nat) : copyChunks src = src := by
  have aux : ∀ n (l : List Nat), l.length ≤ n → copyChunks l = l := by
    intro n
    induction n with
    | zero =>
      intro l hl
      have : l = [] := List.eq_nil_of_length_eq_zero (Nat.le_zero.mp hl)
      subst this
      rw [copyChunks]
      simp
    | succ n ih =>
      intro l hl
      rw [copyChunks]
      by_cases he : l = []
      · simp [he]
      · simp only [he, dite_false]
        rw [ih (l.drop COPY_CHUNK)]
        · exact List.take_append_drop COPY_CHUNK l
        · have : 0 < l.length := List.length_pos.mpr he
          simp only [List.length_drop, COPY_CHUNK]
          omega
  exact aux src.length src le_rfl

/-- One inlined copy-up: read `src` fully in 8 KiB chunks and write it to
`dst` opened with `O_CREAT|O_WRONLY|O_TRUNC` and the given mode. -/
def copy_file (h : HostFS) (src dst : String) (mode : Nat) : HostFS :=
  match hstat h src with
  | none => h
  | some s => hset h dst (mkFileStat mode (copyChunks s.content))

/-! ## Operation handlers -/

/-- The subset of `fi->flags` that the handlers examine. -/
structure OpenFlags where
  o_creat : Bool
  o_wronly : Bool
  o_rdwr : Bool
  o_trunc : Bool
deriving Repr, DecidableEq

def wantsWrite (f : OpenFlags) : Bool := f.o_wronly || f.o_rdwr

/-- The attribute normalization of `dmsa_getattr`: owner forced to the
mount owner; directories presented as 0755; everything else as a regular
file with 0644 plus the backing user-execute bit. -/
def normalize_stat (st : FuseState) (s : StatData) : StatData :=
  let s1 := { s with st_uid := st.owner_uid, st_gid := st.owner_gid }
  if S_ISDIR s.st_mode then { s1 with st_mode := S_IFDIR ||| 0o755 }
  else { s1 with st_mode := S_IFREG ||| 0o644 ||| (s.st_mode &&& S_IXUSR) }

/-- The synthetic root attributes (uid/gid of the mount owner, mode 0755,
nlink 2, timestamps set to the current time). -/
def root_stat (st : FuseState) (now : Int) : StatData :=
  { st_mode := S_IFDIR ||| 0o755
    st_uid := st.owner_uid
    st_gid := st.owner_gid
    st_size := 0
    st_nlink := 2
    st_atime := now
    st_mtime := now
    st_ctime := now
    content := [] }

/-- `dmsa_getattr`. -/
def dmsa_getattr (st : FuseState) (h : HostFS) (now : Int) (p : String) :
    Except Int StatData :=
  if MAX_PATH_DEPTH < path_depth p then .error (-ELOOP)
  else if p == "/" then .ok (root_stat st now)
  else if !st.index_ready then .error (-EBUSY)
  else
    match resolve_actual_path h st p with
    | none => .error (-ENOENT)
    | some a =>
      match hstat h a with
      | none => .error (-ENOENT)
      | some s => .ok (normalize_stat st s)

/-- One iteration of the `readdir(3)` merge loop: skip dot entries,
excluded names, pending deletes and duplicates; stop collecting at the
8192-entry dedup-table capacity. -/
def readdirStep (pend : List String) (path : String) (acc : List String)
    (name : String) : List String :=
  if name == "." || name == ".." then acc
  else if should_exclude name then acc
  else if pending_delete_contains pend (buildVPath path name) then acc
  else if acc.contains name then acc
  else if acc.length < MAX_READDIR_ENTRIES then acc ++ [name]
  else acc

/-- `dmsa_readdir`: the deduplicated union of the local and external
listings, in that order, prefixed with `.` and `..`. -/
def dmsa_readdir (st : FuseState) (h : HostFS) (p : String) :
    Except Int (List String) :=
  if MAX_PATH_DEPTH < path_depth p then .error (-ELOOP)
  else if !st.index_ready then
    if p == "/" then .ok [".", ".."] else .error (-EBUSY)
  else
    let localEntries := dirEntries h (get_local_path st p)
    let extEntries :=
      match get_external_path st p with
      | some ep => dirEntries h ep
      | none => []
    let seen := (localEntries ++ extEntries).foldl (readdirStep st.pending_delete p) []
    .ok ("." :: ".." :: seen)

/-- The final `open(actual_path, fi->flags)` of `dmsa_open`. -/
def host_open (h : HostFS) (p : String) (f : OpenFlags) : Except Int HostFS :=
  match hstat h p with
  | some s =>
    if f.o_trunc && wantsWrite f then
      .ok (hset h p { s with content := [], st_size := 0 })
    else .ok h
  | none =>
    if f.o_creat then .ok (hset h p (mkFileStat 0o644 []))
    else .error (-ENOENT)

/-- Tail of `dmsa_open` after a backing path has been chosen: copy-up to
local when opening an external file for writing, then open the chosen
path; on failure the already-acquired slot is released. -/
def dmsa_open_tail (st1 : FuseState) (h : HostFS) (p actual : String)
    (flags : OpenFlags) : Int × FuseState × HostFS × Option String :=
  let lp := get_local_path st1 p
  let pair :=
    if wantsWrite flags && actual != lp then
      (lp, copy_file (ensure_parent_directory st1.owner_uid st1.owner_gid h lp)
        actual lp 0o644)
    else (actual, h)
  match host_open pair.2 pair.1 flags with
  | .ok h3 => (0, st1, h3, some pair.1)
  | .error e =>
    (e, { st1 with open_count := release_open_slot st1.open_count }, pair.2, none)

/-- The create-empty-file block of `dmsa_open` for a write-implying open
of a path absent from both tiers: ensure the local parent, `open` with
`O_CREAT|O_WRONLY` mode 0644, close, and fix ownership. -/
def open_create_empty (st : FuseState) (h : HostFS) (lp : String) : HostFS :=
  let h1 := ensure_parent_directory st.owner_uid st.owner_gid h lp
  let h2 := if (hstat h1 lp).isSome then h1 else hset h1 lp (mkFileStat 0o644 [])
  fix_ownership st.owner_uid st.owner_gid h2 lp

/-- `dmsa_open`. The early `-ENOENT` return after `acquire_open_slot`
mirrors the C control flow: the acquired slot is not released there. -/
def dmsa_open (st : FuseState) (h : HostFS) (p : String) (flags : OpenFlags) :
    Int × FuseState × HostFS × Option String :=
  if MAX_PATH_DEPTH < path_depth p then (-ELOOP, st, h, none)
  else if !st.index_ready then (-EBUSY, st, h, none)
  else
    match acquire_open_slot st.open_count with
    | none => (-EMFILE, st, h, none)
    | some c =>
      let st1 := { st with open_count := c }
      match resolve_actual_path h st p with
      | none =>
        if flags.o_creat || flags.o_wronly || flags.o_rdwr then
          dmsa_open_tail st1 (open_create_empty st h (get_local_path st p)) p
            (get_local_path st p) flags
        else (-ENOENT, st1, h, none)
      | some actual => dmsa_open_tail st1 h p actual flags

/-- `dmsa_create`: readiness and read-only guards, then create the file
under local with the requested mode and fix ownership. It never touches
the open-slot counter. -/
def dmsa_create (st : FuseState) (h : HostFS) (p : String) (mode : Nat) :
    Int × FuseState × HostFS × Option String :=
  if !st.index_ready then (-EBUSY, st, h, none)
  else if st.readonly then (-EROFS, st, h, none)
  else
    let lp := get_local_path st p
    let h1 := ensure_parent_directory st.owner_uid st.owner_gid h lp
    let h2 := hset h1 lp (mkFileStat mode [])
    let h3 := fix_ownership st.owner_uid st.owner_gid h2 lp
    (0, st, h3, some lp)

/-- The observable steps of the fixed five-step delete sequence. -/
inductive DeleteStep where
  | addPending (p : String)
  | notifyDeleted (p : String) (isDir : Bool)
  | removeLocal (bp : String)
  | removeExternal (bp : String)
  | clearPending (p : String)
deriving Repr, DecidableEq

/-- `dmsa_unlink`, with fault-injection flags for the local and external
`unlink` syscalls (failure with a permission-class errno while the file
remains). A missing file counts as `ENOENT`, which the code treats as
removed. -/
def dmsa_unlink (st : FuseState) (h : HostFS) (p : String)
    (localFails extFails : Bool) : Int × FuseState × HostFS × List DeleteStep :=
  if st.readonly then (-EROFS, st, h, [])
  else if syncing_files_contains st.syncing_files p then (-EBUSY, st, h, [])
  else
    let st1 := { st with pending_delete := pending_delete_add st.pending_delete p }
    let lp := get_local_path st p
    let res1h1 :=
      match hstat h lp with
      | some _ => if localFails then ((-EPERM : Int), h) else ((0 : Int), hremove h lp)
      | none => ((0 : Int), h)
    let res := res1h1.1
    let h1 := res1h1.2
    let tr := [DeleteStep.addPending p, DeleteStep.notifyDeleted p false,
               DeleteStep.removeLocal lp]
    match get_external_path st p with
    | some ep =>
      let tr2 := tr ++ [DeleteStep.removeExternal ep]
      if (hstat h1 ep).isSome && extFails then
        (res, st1, h1, tr2)
      else
        (res,
         { st1 with pending_delete := pending_delete_remove st1.pending_delete p },
         hremove h1 ep, tr2 ++ [DeleteStep.clearPending p])
    | none =>
      (res,
       { st1 with pending_delete := pending_delete_remove st1.pending_delete p },
       h1, tr ++ [DeleteStep.clearPending p])

/-- `dmsa_rmdir`: the same five-step sequence with `rmdir` syscalls. -/
def dmsa_rmdir (st : FuseState) (h : HostFS) (p : String)
    (localFails extFails : Bool) : Int × FuseState × HostFS × List DeleteStep :=
  if st.readonly then (-EROFS, st, h, [])
  else if syncing_files_contains st.syncing_files p then (-EBUSY, st, h, [])
  else
    let st1 := { st with pending_delete := pending_delete_add st.pending_delete p }
    let lp := get_local_path st p
    let res1h1 :=
      match hstat h lp with
      | some _ => if localFails then ((-EPERM : Int), h) else ((0 : Int), hremove h lp)
      | none => ((0 : Int), h)
    let res := res1h1.1
    let h1 := res1h1.2
    let tr := [DeleteStep.addPending p, DeleteStep.notifyDeleted p true,
               DeleteStep.removeLocal lp]
    match get_external_path st p with
    | some ep =>
      let tr2 := tr ++ [DeleteStep.removeExternal ep]
      if (hstat h1 ep).isSome && extFails then
        (res, st1, h1, tr2)
      else
        (res,
         { st1 with pending_delete := pending_delete_remove st1.pending_delete p },
         hremove h1 ep, tr2 ++ [DeleteStep.clearPending p])
    | none =>
      (res,
       { st1 with pending_delete := pending_delete_remove st1.pending_delete p },
       h1, tr ++ [DeleteStep.clearPending p])

/-- `pwrite(2)` content semantics: zero-fill up to the offset when
writing past the end, then splice the data in. -/
def pwriteContent (old : List Nat) (off : Nat) (data : List Nat) : List Nat :=
  (old.take off ++ List.replicate (off - old.length) 0) ++ data ++
    old.drop (off + data.length)

def host_pwrite (h : HostFS) (p : String) (off : Nat) (data : List Nat) :
    Except Int HostFS :=
  match hstat h p with
  | none => .error (-EBADF)
  | some s =>
    let c := pwriteContent s.content off data
    .ok (hset h p { s with content := c, st_size := c.length })

/-- `dmsa_write`: read-only and syncing guards, then `pwrite` on the
stored descriptor, or (with no descriptor) a one-shot create-and-write on
the local path. -/
def dmsa_write (st : FuseState) (h : HostFS) (p : String) (data : List Nat)
    (off : Nat) (fh : Option String) : Int × HostFS :=
  if st.readonly then (-EROFS, h)
  else if syncing_files_contains st.syncing_files p then (-EBUSY, h)
  else
    match fh with
    | some target =>
      match host_pwrite h target off data with
      | .ok h2 => ((data.length : Int), h2)
      | .error e => (e, h)
    | none =>
      let lp := get_local_path st p
      let h1 := ensure_parent_directory st.owner_uid st.owner_gid h lp
      let h2 := if (hstat h1 lp).isSome then h1 else hset h1 lp (mkFileStat 0o644 [])
      match host_pwrite h2 lp off data with
      | .ok h3 => ((data.length : Int), h3)
      | .error e => (e, h2)

/-- `truncate(2)` content semantics. -/
def truncContent (c : List Nat) (size : Nat) : List Nat :=
  c.take size ++ List.replicate (size - c.length) 0

/-- `dmsa_truncate`: guards, copy-up from external when the local copy is
missing (preserving the backing mode), then truncate the local path. -/
def dmsa_truncate (st : FuseState) (h : HostFS) (p : String) (size : Nat) :
    Int × HostFS :=
  if st.readonly then (-EROFS, h)
  else if syncing_files_contains st.syncing_files p then (-EBUSY, h)
  else
    let lp := get_local_path st p
    let h1 :=
      if (hstat h lp).isSome then h
      else
        match get_external_path st p with
        | some ep =>
          match hstat h ep with
          | some s =>
            copy_file (ensure_parent_directory st.owner_uid st.owner_gid h lp)
              ep lp s.st_mode
          | none => h
        | none => h
    match hstat h1 lp with
    | none => (-ENOENT, h1)
    | some s => (0, hset h1 lp { s with content := truncContent s.content size, st_size := size })

/-- `rename(2)` on the host: move the entry, replacing any target. -/
def host_rename (h : HostFS) (src dst : String) : Except Int HostFS :=
  match hstat h src with
  | none => .error (-ENOENT)
  | some s => .ok (hset (hremove h src) dst s)

/-- The best-effort external phase of `dmsa_rename`: when both external
paths apply, `mkdir` the external target parent (one level, errors
ignored) and `rename` the external copy, ignoring errors. -/
def rename_external_phase (st : FuseState) (h : HostFS) (src dst : String) :
    HostFS :=
  match get_external_path st src, get_external_path st dst with
  | some ef, some et =>
    let hp :=
      if (hstat h ⟨dirnameData et.data⟩).isSome then h
      else hset h ⟨dirnameData et.data⟩ (mkDirStat 0o755)
    (match host_rename hp ef et with
     | .ok h5 => h5
     | .error _ => hp)
  | _, _ => h

/-- `dmsa_rename`: ensure the local target parent, copy-up an
external-only source (preserving its mode and fixing ownership), rename
locally, then the best-effort external phase. -/
def dmsa_rename (st : FuseState) (h : HostFS) (src dst : String) : Int × HostFS :=
  if st.readonly then (-EROFS, h)
  else
    let lf := get_local_path st src
    let lt := get_local_path st dst
    let h1 := ensure_parent_directory st.owner_uid st.owner_gid h lt
    let step2 : Except Int HostFS :=
      if (hstat h1 lf).isSome then .ok h1
      else
        match get_external_path st src with
        | some ef =>
          match hstat h1 ef with
          | some s =>
            let h2 := ensure_parent_directory st.owner_uid st.owner_gid h1 lf
            let h3 := copy_file h2 ef lf s.st_mode
            .ok (fix_ownership st.owner_uid st.owner_gid h3 lf)
          | none => .error (-ENOENT)
        | none => .error (-ENOENT)
    match step2 with
    | .error e => (e, h1)
    | .ok h2 =>
      match host_rename h2 lf lt with
      | .error e => (e, h2)
      | .ok h3 => (0, rename_external_phase st h3 src dst)

/-- `dmsa_release`: close the descriptor and release one open slot. -/
def dmsa_release (st : FuseState) (flags : OpenFlags) : Int × FuseState × Bool :=
  (0, { st with open_count := release_open_slot st.open_count },
   wantsWrite flags)

/-! ## Path lemmas -/

theorem join_path_data (a p : String) :
    (join_path a p).data = stripTrail a.data ++ '/' :: stripLead p.data := rfl

theorem join_path_right_cancel (a b p : String)
    (hj : join_path a p = join_path b p) :
    stripTrail a.data = stripTrail b.data := by
  have hd : (join_path a p).data = (join_path b p).data := congrArg String.data hj
  rw [join_path_data, join_path_data] at hd
  exact List.append_cancel_right hd

/-! ## Concrete example fixtures -/

def exFile : StatData := mkFileStat 0o644 [104, 105]

def exFileExec : StatData := mkFileStat 0o755 [104, 105]

def exSt : FuseState :=
  { local_dir := "/loc"
    external_dir := some "/ext"
    external_offline := false
    readonly := false
    index_ready := true
    owner_uid := 501
    owner_gid := 20
    evicting := []
    pending_delete := []
    syncing_files := []
    open_count := 0 }

def exH : HostFS := ⟨[("/loc/a", exFile), ("/ext/b", exFileExec)]⟩

/-! ## C1: resolver ordering -/

/-- C1: for every virtual path and every tier/mask state (with the two
tier roots distinct), `resolve_actual_path` yields the local backing
path iff the local path exists and the path is not evicting; otherwise
it yields the external backing path iff the external root is set, not
offline, and the external path exists; otherwise it yields none. -/
theorem C1_resolve_order (h : HostFS) (st : FuseState) (p : String)
    (hdist : ∀ e, st.external_dir = some e →
      stripTrail st.local_dir.data ≠ stripTrail e.data) :
    (resolve_actual_path h st p = some (get_local_path st p) ↔
      (hstat h (get_local_path st p)).isSome = true ∧ is_evicting st p = false)
    ∧ (¬ ((hstat h (get_local_path st p)).isSome = true ∧ is_evicting st p = false) →
        ((∃ ep, get_external_path st p = some ep ∧
            resolve_actual_path h st p = some ep) ↔
          (∃ e, st.external_dir = some e ∧ st.external_offline = false ∧
            (hstat h (join_path e p)).isSome = true)))
    ∧ (¬ ((hstat h (get_local_path st p)).isSome = true ∧ is_evicting st p = false) →
        (¬ ∃ e, st.external_dir = some e ∧ st.external_offline = false ∧
            (hstat h (join_path e p)).isSome = true) →
        resolve_actual_path h st p = none) := by
  have hlpdef : get_local_path st p = join_path st.local_dir p := rfl
  by_cases hev : is_evicting st p = true
  · -- evicting: the local tier is skipped
    have hres : resolve_actual_path h st p =
        match get_external_path st p with
        | some ep => if (hstat h ep).isSome then some ep else none
        | none => none := by
      simp [resolve_actual_path, hev]
    refine ⟨?_, ?_, ?_⟩
    · constructor
      · intro hcl
        exfalso
        rw [hres] at hcl
        cases hext : get_external_path st p with
        | none => rw [hext] at hcl; simp at hcl
        | some ep =>
          rw [hext] at hcl
          by_cases hse : (hstat h ep).isSome = true
          · simp [hse] at hcl
            obtain ⟨e, he, hoff, hep⟩ : ∃ e, st.external_dir = some e ∧
                st.external_offline = false ∧ ep = join_path e p := by
              unfold get_external_path at hext
              cases hd : st.external_dir with
              | none => rw [hd] at hext; simp at hext
              | some e =>
                rw [hd] at hext
                by_cases ho : st.external_offline
                · simp [ho] at hext
                · simp [ho] at hext
                  exact ⟨e, rfl, by simp [ho], hext.symm⟩
            apply hdist e he
            apply join_path_right_cancel
            rw [← hep, hcl, hlpdef]
          · simp [hse] at hcl
      · intro hcl
        exact absurd hev (by simp [hcl.2])
    · intro _
      rw [hres]
      unfold get_external_path
      cases hd : st.external_dir with
      | none => simp
      | some e =>
        by_cases ho : st.external_offline
        · simp [ho]
        · simp only [ho, if_false]
          by_cases hse : (hstat h (join_path e p)).isSome = true
          · simp [hse]
          · simp [hse]
    · intro _ hnoext
      rw [hres]
      unfold get_external_path
      cases hd : st.external_dir with
      | none => simp
      | some e =>
        by_cases ho : st.external_offline
        · simp [ho]
        · simp only [ho, if_false]
          have : (hstat h (join_path e p)).isSome ≠ true := by
            intro hs
            exact hnoext ⟨e, hd, by simp [ho], hs⟩
          simp [this]
  · -- not evicting
    have hev2 : is_evicting st p = false := by simpa using hev
    by_cases hloc : (hstat h (get_local_path st p)).isSome = true
    · have hres : resolve_actual_path h st p = some (get_local_path st p) := by
        simp [resolve_actual_path, hev2, get_local_path] at hloc ⊢
        simp [hloc]
      refine ⟨⟨fun _ => ⟨hloc, hev2⟩, fun _ => hres⟩, ?_, ?_⟩
      · intro hc; exact absurd ⟨hloc, hev2⟩ hc
      · intro hc; exact absurd ⟨hloc, hev2⟩ hc
    · have hloc2 : (hstat h (join_path st.local_dir p)).isSome = false := by
        rw [← hlpdef]; simpa using hloc
      have hres : resolve_actual_path h st p =
          match get_external_path st p with
          | some ep => if (hstat h ep).isSome then some ep else none
          | none => none := by
        simp [resolve_actual_path, hev2, get_local_path, hloc2]
      refine ⟨?_, ?_, ?_⟩
      · constructor
        · intro hcl
          exfalso
          rw [hres] at hcl
          cases hext : get_external_path st p with
          | none => rw [hext] at hcl; simp at hcl
          | some ep =>
            rw [hext] at hcl
            by_cases hse : (hstat h ep).isSome = true
            · simp [hse] at hcl
              rw [hcl, hlpdef] at hse
              rw [hse] at hloc2
              simp at hloc2
            · simp [hse] at hcl
        · intro hcl
          exact absurd hcl.1 hloc
      · intro _
        rw [hres]
        unfold get_external_path
        cases hd : st.external_dir with
        | none => simp
        | some e =>
          by_cases ho : st.external_offline
          · simp [ho]
          · simp only [ho, if_false]
            by_cases hse : (hstat h (join_path e p)).isSome = true
            · simp [hse]
            · simp [hse]
      · intro _ hnoext
        rw [hres]
        unfold get_external_path
        cases hd : st.external_dir with
        | none => simp
        | some e =>
          by_cases ho : st.external_offline
          · simp [ho]
          · simp only [ho, if_false]
            have : (hstat h (join_path e p)).isSome ≠ true := by
              intro hs
              exact hnoext ⟨e, hd, by simp [ho], hs⟩
            simp [this]

/-- C1 witness: at a concrete state where `/a` exists only in the local
tier, the resolver yields the local backing path. -/
theorem C1_resolve_order_witness :
    resolve_actual_path exH exSt "/a" = some (get_local_path exSt "/a") :=
  ((C1_resolve_order exH exSt "/a" (by decide)).1).mpr (by decide)

/-! ## Well-formed virtual paths and join lemmas -/

/-- A legal directory-entry name: nonempty, no separator. -/
@[reducible] def validName (n : String) : Prop :=
  n.data ≠ [] ∧ ∀ c ∈ n.data, c ≠ '/'

/-- A legal parent directory path: the root, or a path that ends in a
non-separator and contains at least one non-separator character. -/
@[reducible] def validParent (d : String) : Prop :=
  d = "/" ∨ (d.data.getLast? ≠ some '/' ∧ ∃ c ∈ d.data, c ≠ '/')

theorem stripLead_of_head_ne (xs : List Char) (hx : xs.head? ≠ some '/') :
    stripLead xs = xs := by
  cases xs with
  | nil => rfl
  | cons c cs =>
    have : c ≠ '/' := by
      intro hc
      exact hx (by simp [hc])
    simp [stripLead, this]

theorem stripLead_append (xs ys : List Char) (hx : ∃ c ∈ xs, c ≠ '/') :
    stripLead (xs ++ ys) = stripLead xs ++ ys := by
  induction xs with
  | nil =>
    rcases hx with ⟨c, hc, _⟩
    simp at hc
  | cons c cs ih =>
    by_cases hc : c = '/'
    · subst hc
      have hcs : ∃ d ∈ cs, d ≠ '/' := by
        rcases hx with ⟨d, hd, hne⟩
        rcases List.mem_cons.mp hd with h | h
        · exact absurd h hne
        · exact ⟨d, h, hne⟩
      simp [stripLead, ih hcs]
    · simp [stripLead, hc]

theorem stripLead_ne_nil (xs : List Char) (hx : ∃ c ∈ xs, c ≠ '/') :
    stripLead xs ≠ [] := by
  induction xs with
  | nil =>
    rcases hx with ⟨c, hc, _⟩
    simp at hc
  | cons c cs ih =>
    by_cases hc : c = '/'
    · subst hc
      have hcs : ∃ d ∈ cs, d ≠ '/' := by
        rcases hx with ⟨d, hd, hne⟩
        rcases List.mem_cons.mp hd with h | h
        · exact absurd h hne
        · exact ⟨d, h, hne⟩
      simp [stripLead, ih hcs]
    · simp [stripLead, hc]

theorem getLast?_cons_ne_nil (a : Char) (l : List Char) (hl : l ≠ []) :
    (a :: l).getLast? = l.getLast? := by
  cases l with
  | nil => exact absurd rfl hl
  | cons b bs => rw [List.getLast?_cons_cons]

theorem stripLead_getLast? (xs : List Char) (hx : ∃ c ∈ xs, c ≠ '/') :
    (stripLead xs).getLast? = xs.getLast? := by
  induction xs with
  | nil =>
    rcases hx with ⟨c, hc, _⟩
    simp at hc
  | cons c cs ih =>
    by_cases hc : c = '/'
    · subst hc
      have hcs : ∃ d ∈ cs, d ≠ '/' := by
        rcases hx with ⟨d, hd, hne⟩
        rcases List.mem_cons.mp hd with h | h
        · exact absurd h hne
        · exact ⟨d, h, hne⟩
      have hne : cs ≠ [] := by
        rcases hcs with ⟨d, hd, _⟩
        exact List.ne_nil_of_mem hd
      have hred : stripLead ('/' :: cs) = stripLead cs := by simp [stripLead]
      rw [hred, ih hcs, getLast?_cons_ne_nil _ _ hne]
    · simp [stripLead, hc]

theorem stripTrail_of_getLast_ne (xs : List Char) (hx : xs.getLast? ≠ some '/') :
    stripTrail xs = xs := by
  unfold stripTrail
  have hrev : xs.reverse.head? ≠ some '/' := by
    rw [List.head?_reverse]
    exact hx
  have : xs.reverse.dropWhile (fun c => c == '/') = xs.reverse := by
    cases hr : xs.reverse with
    | nil => simp
    | cons c cs =>
      have hcne : c ≠ '/' := by
        intro hc
        apply hrev
        rw [hr, hc]
        rfl
      have hb : (c == '/') = false := by simp [hcne]
      simp [List.dropWhile, hb]
  rw [this, List.reverse_reverse]

theorem dropWhile_head_not (p : Char → Bool) (l : List Char) (c : Char)
    (hc : (l.dropWhile p).head? = some c) : p c = false := by
  induction l with
  | nil => simp at hc
  | cons a as ih =>
    by_cases hp : p a = true
    · rw [List.dropWhile_cons_of_pos hp] at hc
      exact ih hc
    · rw [List.dropWhile_cons_of_neg hp] at hc
      simp at hc
      subst hc
      simpa using hp

theorem stripTrail_getLast_ne (xs : List Char) :
    (stripTrail xs).getLast? ≠ some '/' := by
  unfold stripTrail
  intro hx
  rw [← List.head?_reverse, List.reverse_reverse] at hx
  have := dropWhile_head_not (fun c => c == '/') xs.reverse '/' hx
  simp at this

theorem stripTrail_idem (xs : List Char) :
    stripTrail (stripTrail xs) = stripTrail xs :=
  stripTrail_of_getLast_ne _ (stripTrail_getLast_ne xs)

theorem stripTrail_append_slash (xs : List Char) :
    stripTrail (xs ++ ['/']) = stripTrail xs := by
  unfold stripTrail
  rw [List.reverse_append]
  simp [List.dropWhile]

/-- The backing path of `buildVPath parent name` is the backing parent
directory (trailing separators trimmed) plus one separator plus the
name, for any tier root. -/
theorem join_parent_child (R parent name : String)
    (hp : validParent parent) (hn : validName name) :
    (join_path R (buildVPath parent name)).data =
      stripTrail (join_path R parent).data ++ '/' :: name.data := by
  rcases hn with ⟨hne, hslash⟩
  have hheadn : name.data.head? ≠ some '/' := by
    cases hd : name.data with
    | nil => simp
    | cons c cs =>
      have : c ≠ '/' := hslash c (by rw [hd]; exact List.mem_cons_self _ _)
      simp [this]
  rcases hp with hroot | ⟨hlast, hex⟩
  · subst hroot
    have hbv : (buildVPath "/" name).data = '/' :: name.data := by
      simp [buildVPath]
    rw [join_path_data, join_path_data, hbv]
    have h1 : stripLead ('/' :: name.data) = name.data := by
      simp only [stripLead, if_pos rfl]
      exact stripLead_of_head_ne _ hheadn
    have hslash2 : stripLead ("/" : String).data = [] := by
      simp [stripLead]
    rw [h1, hslash2]
    have h2 : stripTrail (stripTrail R.data ++ '/' :: ([] : List Char)) =
        stripTrail R.data := by
      have : '/' :: ([] : List Char) = ['/'] := rfl
      rw [this, stripTrail_append_slash, stripTrail_idem]
    rw [h2]
  · have hner : parent ≠ "/" := by
      intro hr
      rw [hr] at hlast
      simp at hlast
    have hbv : (buildVPath parent name).data = parent.data ++ '/' :: name.data := by
      simp only [buildVPath]
      have : (parent == "/") = false := by
        simp [hner]
      rw [this]
      simp
    rw [join_path_data, join_path_data, hbv]
    rw [stripLead_append parent.data ('/' :: name.data) hex]
    have hSLne : stripLead parent.data ≠ [] := stripLead_ne_nil _ hex
    have hJlast : (stripTrail R.data ++ '/' :: stripLead parent.data).getLast? ≠
        some '/' := by
      rw [List.getLast?_append_of_ne_nil _ (by simp)]
      rw [getLast?_cons_ne_nil _ _ hSLne]
      rw [stripLead_getLast? _ hex]
      exact hlast
    rw [stripTrail_of_getLast_ne _ hJlast]
    simp

/-- What a successful `childName` tells us about the stored path. -/
theorem childName_eq (dir q n : String) (hc : childName dir q = some n) :
    q.data = stripTrail dir.data ++ '/' :: n.data := by
  unfold childName at hc
  by_cases hpre : (stripTrail dir.data ++ ['/']).isPrefixOf q.data = true
  · rw [if_pos hpre] at hc
    have hprefix : stripTrail dir.data ++ ['/'] <+: q.data :=
      List.isPrefixOf_iff_prefix.mp hpre
    rcases hprefix with ⟨t, ht⟩
    have hlen : (stripTrail dir.data ++ ['/']).length =
        (stripTrail dir.data).length + 1 := by simp
    have hdrop : q.data.drop ((stripTrail dir.data).length + 1) = t := by
      rw [← ht, ← hlen, List.drop_left]
    rw [hdrop] at hc
    by_cases hcond : (!t.isEmpty && t.all (fun c => c != '/')) = true
    · rw [if_pos hcond] at hc
      have hnt : n.data = t := by
        have := Option.some.inj hc
        exact congrArg String.data this.symm
      rw [← ht, hnt]
      simp
    · rw [if_neg hcond] at hc
      cases hc
  · rw [if_neg hpre] at hc
    cases hc

/-- Membership in `dirEntries` exhibits a stored path. -/
theorem mem_dirEntries (h : HostFS) (dir x : String) (hx : x ∈ dirEntries h dir) :
    ∃ q, (hstat h q).isSome = true ∧ childName dir q = some x := by
  unfold dirEntries at hx
  rcases List.mem_filterMap.mp hx with ⟨e, he, hcn⟩
  refine ⟨e.1, ?_, hcn⟩
  unfold hstat
  rw [Option.isSome_map']
  rw [List.find?_isSome]
  exact ⟨e, he, by simp⟩

/-! ## Facts about the delete sequence -/

theorem hstat_none_hremove (h : HostFS) (k q : String) (hk : hstat h k = none) :
    hstat (hremove h q) k = none := by
  by_cases hkq : k = q
  · subst hkq
    exact hstat_hremove_self h k
  · rw [hstat_hremove_other h q k hkq]
    exact hk

theorem pending_add_contains_self (l : List String) (p : String) :
    pending_delete_contains (pending_delete_add l p) p = true := by
  unfold pending_delete_contains pending_delete_add
  by_cases hc : l.contains p = true
  · have hm : p ∈ l := by simpa using hc
    simp [hm]
  · have hm : p ∉ l := by simpa using hc
    by_cases hlen : PENDING_DELETE_SIZE ≤ l.length
    · simp [hm, hlen]
    · simp [hm, hlen]

/-- The mount configuration and mask sets other than pending-delete are
untouched by `dmsa_unlink`. -/
theorem dmsa_unlink_config (st : FuseState) (h : HostFS) (p : String)
    (lf ef : Bool) :
    (dmsa_unlink st h p lf ef).2.1.local_dir = st.local_dir ∧
    (dmsa_unlink st h p lf ef).2.1.external_dir = st.external_dir ∧
    (dmsa_unlink st h p lf ef).2.1.external_offline = st.external_offline ∧
    (dmsa_unlink st h p lf ef).2.1.index_ready = st.index_ready ∧
    (dmsa_unlink st h p lf ef).2.1.evicting = st.evicting := by
  by_cases hro : st.readonly = true
  · simp [dmsa_unlink, hro]
  · by_cases hsy : syncing_files_contains st.syncing_files p = true
    · simp [dmsa_unlink, hro, hsy]
    · rcases hlp : hstat h (get_local_path st p) with _ | s
      all_goals rcases hext : get_external_path st p with _ | ep
      · simp [dmsa_unlink, hro, hsy, hlp, hext]
      · by_cases hcond : ((hstat h ep).isSome = true ∧ ef = true)
        · simp [dmsa_unlink, hro, hsy, hlp, hext, hcond]
        · simp [dmsa_unlink, hro, hsy, hlp, hext, hcond]
      · by_cases hlf : lf = true
        · simp [dmsa_unlink, hro, hsy, hlp, hext, hlf]
        · have hlf2 : lf = false := by simpa using hlf
          simp [dmsa_unlink, hro, hsy, hlp, hext, hlf2]
      · by_cases hlf : lf = true
        · by_cases hcond : ((hstat h ep).isSome = true ∧ ef = true)
          · simp [dmsa_unlink, hro, hsy, hlp, hext, hlf, hcond]
          · simp [dmsa_unlink, hro, hsy, hlp, hext, hlf, hcond]
        · have hlf2 : lf = false := by simpa using hlf
          by_cases hcond :
              ((hstat (hremove h (get_local_path st p)) ep).isSome = true ∧ ef = true)
          · simp [dmsa_unlink, hro, hsy, hlp, hext, hlf2, hcond]
          · simp [dmsa_unlink, hro, hsy, hlp, hext, hlf2, hcond]

/-- If `dmsa_unlink` returned 0, the local backing path is gone. -/
theorem dmsa_unlink_local_gone (st : FuseState) (h : HostFS) (p : String)
    (lf ef : Bool) (hro : st.readonly = false)
    (hsy : syncing_files_contains st.syncing_files p = false)
    (hret : (dmsa_unlink st h p lf ef).1 = 0) :
    hstat (dmsa_unlink st h p lf ef).2.2.1 (get_local_path st p) = none := by
  rcases hlp : hstat h (get_local_path st p) with _ | s
  · -- local copy already absent
    rcases hext : get_external_path st p with _ | ep
    · simp [dmsa_unlink, hro, hsy, hlp, hext]
    · by_cases hcond : ((hstat h ep).isSome = true ∧ ef = true)
      · simp [dmsa_unlink, hro, hsy, hlp, hext, hcond]
      · simp [dmsa_unlink, hro, hsy, hlp, hext, hcond]
        exact hstat_none_hremove _ _ _ hlp
  · -- local copy present
    by_cases hlf : lf = true
    · -- the injected local failure makes the return nonzero
      exfalso
      rcases hext : get_external_path st p with _ | ep
      · simp [dmsa_unlink, hro, hsy, hlp, hext, hlf, EPERM] at hret
      · by_cases hcond : ((hstat h ep).isSome = true ∧ ef = true)
        · simp [dmsa_unlink, hro, hsy, hlp, hext, hlf, hcond, EPERM] at hret
        · simp [dmsa_unlink, hro, hsy, hlp, hext, hlf, hcond, EPERM] at hret
    · have hlf2 : lf = false := by simpa using hlf
      rcases hext : get_external_path st p with _ | ep
      · simp [dmsa_unlink, hro, hsy, hlp, hext, hlf2]
        exact hstat_hremove_self _ _
      · by_cases hcond :
          ((hstat (hremove h (get_local_path st p)) ep).isSome = true ∧ ef = true)
        · simp [dmsa_unlink, hro, hsy, hlp, hext, hlf2, hcond]
          exact hstat_hremove_self _ _
        · simp [dmsa_unlink, hro, hsy, hlp, hext, hlf2, hcond]
          exact hstat_none_hremove _ _ _ (hstat_hremove_self _ _)

/-- If the trace lacks the clear-pending step, the virtual path is still
in the pending-delete set afterwards. -/
theorem dmsa_unlink_pending_kept (st : FuseState) (h : HostFS) (p : String)
    (lf ef : Bool) (hro : st.readonly = false)
    (hsy : syncing_files_contains st.syncing_files p = false)
    (hnc : DeleteStep.clearPending p ∉ (dmsa_unlink st h p lf ef).2.2.2) :
    pending_delete_contains (dmsa_unlink st h p lf ef).2.1.pending_delete p = true := by
  rcases hlp : hstat h (get_local_path st p) with _ | s
  all_goals rcases hext : get_external_path st p with _ | ep
  · simp [dmsa_unlink, hro, hsy, hlp, hext] at hnc
  · by_cases hcond : ((hstat h ep).isSome = true ∧ ef = true)
    · simp [dmsa_unlink, hro, hsy, hlp, hext, hcond]
      exact pending_add_contains_self _ _
    · simp [dmsa_unlink, hro, hsy, hlp, hext, hcond] at hnc
  · by_cases hlf : lf = true
    · simp [dmsa_unlink, hro, hsy, hlp, hext, hlf] at hnc
    · have hlf2 : lf = false := by simpa using hlf
      simp [dmsa_unlink, hro, hsy, hlp, hext, hlf2] at hnc
  · by_cases hlf : lf = true
    · by_cases hcond : ((hstat h ep).isSome = true ∧ ef = true)
      · simp [dmsa_unlink, hro, hsy, hlp, hext, hlf, hcond]
        exact pending_add_contains_self _ _
      · simp [dmsa_unlink, hro, hsy, hlp, hext, hlf, hcond] at hnc
    · have hlf2 : lf = false := by simpa using hlf
      by_cases hcond :
          ((hstat (hremove h (get_local_path st p)) ep).isSome = true ∧ ef = true)
      · simp [dmsa_unlink, hro, hsy, hlp, hext, hlf2, hcond]
        exact pending_add_contains_self _ _
      · simp [dmsa_unlink, hro, hsy, hlp, hext, hlf2, hcond] at hnc

/-- If the trace contains the clear-pending step, the external backing
path (when one applies) is gone from the host filesystem. -/
theorem dmsa_unlink_external_gone (st : FuseState) (h : HostFS) (p : String)
    (lf ef : Bool) (hro : st.readonly = false)
    (hsy : syncing_files_contains st.syncing_files p = false)
    (hc : DeleteStep.clearPending p ∈ (dmsa_unlink st h p lf ef).2.2.2) :
    ∀ ep, get_external_path st p = some ep →
      hstat (dmsa_unlink st h p lf ef).2.2.1 ep = none := by
  intro ep hext
  rcases hlp : hstat h (get_local_path st p) with _ | s
  · by_cases hcond : ((hstat h ep).isSome = true ∧ ef = true)
    · simp [dmsa_unlink, hro, hsy, hlp, hext, hcond] at hc
    · simp [dmsa_unlink, hro, hsy, hlp, hext, hcond]
      exact hstat_hremove_self _ _
  · by_cases hlf : lf = true
    · by_cases hcond : ((hstat h ep).isSome = true ∧ ef = true)
      · simp [dmsa_unlink, hro, hsy, hlp, hext, hlf, hcond] at hc
      · simp [dmsa_unlink, hro, hsy, hlp, hext, hlf, hcond]
        exact hstat_hremove_self _ _
    · have hlf2 : lf = false := by simpa using hlf
      by_cases hcond :
          ((hstat (hremove h (get_local_path st p)) ep).isSome = true ∧ ef = true)
      · simp [dmsa_unlink, hro, hsy, hlp, hext, hlf2, hcond] at hc
      · simp [dmsa_unlink, hro, hsy, hlp, hext, hlf2, hcond]
        exact hstat_hremove_self _ _

/-! ## Readdir membership lemmas -/

theorem mem_readdirStep (pend : List String) (path : String) (acc : List String)
    (e x : String) (hx : x ∈ readdirStep pend path acc e) :
    x ∈ acc ∨ (x = e ∧ pending_delete_contains pend (buildVPath path e) = false) := by
  unfold readdirStep at hx
  by_cases h1 : (e == "." || e == "..") = true
  · simp only [h1, if_true] at hx
    exact Or.inl hx
  · have hb1 : (e == "." || e == "..") = false := by simpa using h1
    simp only [hb1, Bool.false_eq_true, if_false] at hx
    by_cases h2 : should_exclude e = true
    · simp only [h2, if_true] at hx
      exact Or.inl hx
    · have hb2 : should_exclude e = false := by simpa using h2
      simp only [hb2, Bool.false_eq_true, if_false] at hx
      by_cases h3 : pending_delete_contains pend (buildVPath path e) = true
      · simp only [h3, if_true] at hx
        exact Or.inl hx
      · have hb3 : pending_delete_contains pend (buildVPath path e) = false := by
          simpa using h3
        simp only [hb3, Bool.false_eq_true, if_false] at hx
        by_cases h4 : acc.contains e = true
        · simp only [h4, if_true] at hx
          exact Or.inl hx
        · have hb4 : acc.contains e = false := by simpa using h4
          simp only [hb4, Bool.false_eq_true, if_false] at hx
          by_cases h5 : acc.length < MAX_READDIR_ENTRIES
          · simp only [if_pos h5] at hx
            rcases List.mem_append.mp hx with h | h
            · exact Or.inl h
            · exact Or.inr ⟨List.mem_singleton.mp h, hb3⟩
          · simp only [if_neg h5] at hx
            exact Or.inl hx

theorem mem_foldl_readdirStep (pend : List String) (path : String) :
    ∀ (es acc : List String) (x : String),
      x ∈ es.foldl (readdirStep pend path) acc →
      x ∈ acc ∨ (pending_delete_contains pend (buildVPath path x) = false ∧ x ∈ es) := by
  intro es
  induction es with
  | nil =>
    intro acc x hx
    exact Or.inl hx
  | cons e es ih =>
    intro acc x hx
    rw [List.foldl_cons] at hx
    rcases ih _ x hx with h | h
    · rcases mem_readdirStep pend path acc e x h with h2 | ⟨hxe, h3⟩
      · exact Or.inl h2
      · subst hxe
        exact Or.inr ⟨h3, List.mem_cons_self _ _⟩
    · exact Or.inr ⟨h.1, List.mem_cons_of_mem _ h.2⟩

/-- A well-formed parent/name pair never rebuilds the root path. -/
theorem vpath_ne_root (parent name : String)
    (hp : validParent parent) (hn : validName name) :
    buildVPath parent name ≠ "/" := by
  intro hcontra
  have hdata : (buildVPath parent name).data = ['/'] := by
    rw [hcontra]
  rcases hn with ⟨hne, _⟩
  rcases hp with hroot | ⟨_, hex⟩
  · subst hroot
    have : (buildVPath "/" name).data = '/' :: name.data := by simp [buildVPath]
    rw [this] at hdata
    have := congrArg List.length hdata
    simp at this
    exact hne (List.eq_nil_of_length_eq_zero this)
  · have hner : parent ≠ "/" := by
      intro hr
      rw [hr] at hex
      rcases hex with ⟨c, hc, hcne⟩
      simp at hc
      exact hcne hc
    have : (buildVPath parent name).data = parent.data ++ '/' :: name.data := by
      simp only [buildVPath]
      have hb : (parent == "/") = false := by simp [hner]
      rw [hb]
      simp
    rw [this] at hdata
    have hlen := congrArg List.length hdata
    rw [List.length_append, List.length_cons, List.length_singleton] at hlen
    have hpos : 0 < name.data.length := List.length_pos.mpr hne
    omega

theorem get_external_path_congr (st st2 : FuseState) (p : String)
    (h1 : st2.external_dir = st.external_dir)
    (h2 : st2.external_offline = st.external_offline) :
    get_external_path st2 p = get_external_path st p := by
  unfold get_external_path
  rw [h1, h2]

/-! ## C2: visibility after unlink -/

/-- C2 (amended): after `unlink(p)` returns success, `readdir(parent(p))`
omits the basename irrespective of whether the external removal
succeeded; and `getattr(p)` yields not-found whenever the external
removal succeeded or no external path applies (the clear-pending step
appears in the trace).  When the external removal fails, `getattr`
instead resolves the surviving external copy, so not-found is not
guaranteed in that case. -/
theorem C2_unlink_hides (st : FuseState) (h : HostFS) (parent name : String)
    (now : Int) (lf ef : Bool)
    (hvp : validParent parent) (hvn : validName name)
    (hd1 : name ≠ ".") (hd2 : name ≠ "..")
    (hready : st.index_ready = true)
    (hro : st.readonly = false)
    (hsy : syncing_files_contains st.syncing_files (buildVPath parent name) = false)
    (hdepth : path_depth (buildVPath parent name) ≤ MAX_PATH_DEPTH)
    (hret : (dmsa_unlink st h (buildVPath parent name) lf ef).1 = 0) :
    (∀ l, dmsa_readdir (dmsa_unlink st h (buildVPath parent name) lf ef).2.1
        (dmsa_unlink st h (buildVPath parent name) lf ef).2.2.1 parent =
          Except.ok l →
      name ∉ l)
    ∧ (DeleteStep.clearPending (buildVPath parent name) ∈
        (dmsa_unlink st h (buildVPath parent name) lf ef).2.2.2 →
      dmsa_getattr (dmsa_unlink st h (buildVPath parent name) lf ef).2.1
        (dmsa_unlink st h (buildVPath parent name) lf ef).2.2.1 now
        (buildVPath parent name) = Except.error (-ENOENT)) := by
  set p := buildVPath parent name with hpdef
  set u := dmsa_unlink st h p lf ef with hudef
  obtain ⟨hcl, hce, hco, hci, hcev⟩ := dmsa_unlink_config st h p lf ef
  have hlocal : hstat u.2.2.1 (get_local_path st p) = none :=
    dmsa_unlink_local_gone st h p lf ef hro hsy hret
  have hready2 : u.2.1.index_ready = true := by rw [hci]; exact hready
  constructor
  · intro l hok hmem
    by_cases hdp : MAX_PATH_DEPTH < path_depth parent
    · simp [dmsa_readdir, hdp] at hok
    · simp only [dmsa_readdir, if_neg hdp, hready2, Bool.not_true,
        Bool.false_eq_true, if_false] at hok
      have hl := (Except.ok.inj hok).symm
      rw [hl] at hmem
      rcases List.mem_cons.mp hmem with hdot | hmem
      · exact hd1 hdot
      rcases List.mem_cons.mp hmem with hdot | hmem
      · exact hd2 hdot
      rcases mem_foldl_readdirStep u.2.1.pending_delete parent _ _ _ hmem with
        hnil | ⟨hpend, hmem2⟩
      · simp at hnil
      by_cases hclear : DeleteStep.clearPending p ∈ u.2.2.2
      · -- both tiers lack the backing path
        rcases List.mem_append.mp hmem2 with hmm | hmm
        · rcases mem_dirEntries _ _ _ hmm with ⟨q, hq, hcn⟩
          have hqd := childName_eq _ _ _ hcn
          have hgl : get_local_path u.2.1 parent = join_path st.local_dir parent := by
            unfold get_local_path
            rw [hcl]
          rw [hgl] at hqd
          have hjq : q.data = (join_path st.local_dir p).data := by
            rw [hqd, hpdef, join_parent_child st.local_dir parent name hvp hvn]
          have hq2 : q = join_path st.local_dir p := by
            have h3 := congrArg String.mk hjq
            exact h3
          rw [hq2] at hq
          have : join_path st.local_dir p = get_local_path st p := rfl
          rw [this, hlocal] at hq
          simp at hq
        · have hge : get_external_path u.2.1 parent = get_external_path st parent :=
            get_external_path_congr st u.2.1 parent hce hco
          rw [hge] at hmm
          cases hed : st.external_dir with
          | none =>
            rw [show get_external_path st parent = none from by
              unfold get_external_path; rw [hed]] at hmm
            simp at hmm
          | some e =>
            by_cases hoff : st.external_offline = true
            · rw [show get_external_path st parent = none from by
                unfold get_external_path; rw [hed]; simp [hoff]] at hmm
              simp at hmm
            · have hoff2 : st.external_offline = false := by simpa using hoff
              rw [show get_external_path st parent = some (join_path e parent) from by
                unfold get_external_path; rw [hed]; simp [hoff2]] at hmm
              rcases mem_dirEntries _ _ _ hmm with ⟨q, hq, hcn⟩
              have hqd := childName_eq _ _ _ hcn
              have hjq : q.data = (join_path e p).data := by
                rw [hqd, hpdef, join_parent_child e parent name hvp hvn]
              have hq2 : q = join_path e p := congrArg String.mk hjq
              rw [hq2] at hq
              have hext : get_external_path st p = some (join_path e p) := by
                unfold get_external_path
                rw [hed]
                simp [hoff2]
              have := dmsa_unlink_external_gone st h p lf ef hro hsy hclear
                (join_path e p) hext
              rw [this] at hq
              simp at hq
      · have hkept := dmsa_unlink_pending_kept st h p lf ef hro hsy hclear
        rw [hkept] at hpend
        simp at hpend
  · intro hclear
    have hpn : (p == "/") = false := by
      have := vpath_ne_root parent name hvp hvn
      rw [hpdef]
      simp [this]
    have hdep2 : ¬ (MAX_PATH_DEPTH < path_depth p) := by
      omega
    have hrl : hstat u.2.2.1 (get_local_path u.2.1 p) = none := by
      have : get_local_path u.2.1 p = get_local_path st p := by
        unfold get_local_path
        rw [hcl]
      rw [this]
      exact hlocal
    have hre : ∀ ep, get_external_path u.2.1 p = some ep →
        hstat u.2.2.1 ep = none := by
      intro ep hep
      apply dmsa_unlink_external_gone st h p lf ef hro hsy hclear
      rw [← get_external_path_congr st u.2.1 p hce hco]
      exact hep
    have hresolve : resolve_actual_path u.2.2.1 u.2.1 p = none := by
      unfold resolve_actual_path
      by_cases hev : is_evicting u.2.1 p = true
      · simp only [hev, if_true]
        cases hep : get_external_path u.2.1 p with
        | none => simp
        | some ep => simp [hre ep hep]
      · have hev2 : is_evicting u.2.1 p = false := by simpa using hev
        simp only [hev2, Bool.false_eq_true, if_false, hrl, Option.isSome_none]
        cases hep : get_external_path u.2.1 p with
        | none => simp
        | some ep => simp [hre ep hep]
    simp [dmsa_getattr, hdep2, hpn, hready2, hresolve]

/-- C2 counterexample fixture: `/stale` exists in both tiers and the
external `unlink` is made to fail. -/
def c2H : HostFS := ⟨[("/loc/stale", exFile), ("/ext/stale", exFile)]⟩

/-- C2 counterexample: the claim asserts `getattr(p)` yields not-found
after `unlink(p)` returns irrespective of the external removal outcome.
With the external removal failing, `unlink` returns 0 but `getattr`
succeeds by resolving the surviving external copy. -/
theorem C2_counterexample :
    (dmsa_unlink exSt c2H "/stale" false true).1 = 0 ∧
    (dmsa_getattr (dmsa_unlink exSt c2H "/stale" false true).2.1
      (dmsa_unlink exSt c2H "/stale" false true).2.2.1 0
      "/stale").toOption.isSome = true := by
  decide

/-- C2 witness: both amended conclusions at a concrete state where the
external removal succeeds. -/
theorem C2_unlink_hides_witness :
    (∀ l, dmsa_readdir (dmsa_unlink exSt c2H (buildVPath "/" "stale") false false).2.1
        (dmsa_unlink exSt c2H (buildVPath "/" "stale") false false).2.2.1 "/" =
          Except.ok l →
      "stale" ∉ l)
    ∧ (DeleteStep.clearPending (buildVPath "/" "stale") ∈
        (dmsa_unlink exSt c2H (buildVPath "/" "stale") false false).2.2.2 →
      dmsa_getattr (dmsa_unlink exSt c2H (buildVPath "/" "stale") false false).2.1
        (dmsa_unlink exSt c2H (buildVPath "/" "stale") false false).2.2.1 7
        (buildVPath "/" "stale") = Except.error (-ENOENT)) :=
  C2_unlink_hides exSt c2H "/" "stale" 7 false false (by decide) (by decide)
    (by decide) (by decide) (by decide) (by decide) (by decide) (by decide)
    (by decide)

/-! ## C3: readiness gate -/

theorem host_open_error (h : HostFS) (p : String) (flags : OpenFlags) (e : Int)
    (he : host_open h p flags = Except.error e) : e = -ENOENT := by
  unfold host_open at he
  cases hs : hstat h p with
  | some s =>
    rw [hs] at he
    by_cases ht : (flags.o_trunc && wantsWrite flags) = true
    · simp [ht] at he
    · simp [ht] at he
  | none =>
    rw [hs] at he
    by_cases hc : flags.o_creat = true
    · simp [hc] at he
    · simp [hc] at he
      exact he.symm

theorem dmsa_open_tail_res (st1 : FuseState) (h : HostFS) (p actual : String)
    (flags : OpenFlags) :
    (dmsa_open_tail st1 h p actual flags).1 = 0 ∨
    (dmsa_open_tail st1 h p actual flags).1 = -ENOENT := by
  unfold dmsa_open_tail
  by_cases hw : (wantsWrite flags && actual != get_local_path st1 p) = true
  · simp only [hw, if_true]
    cases hho : host_open
        (copy_file (ensure_parent_directory st1.owner_uid st1.owner_gid h
          (get_local_path st1 p)) actual (get_local_path st1 p) 0o644)
        (get_local_path st1 p) flags with
    | ok h3 => simp [hho]
    | error e =>
      simp [hho]
      exact Or.inr (host_open_error _ _ _ _ hho)
  · simp only [hw, Bool.false_eq_true, if_false]
    cases hho : host_open h actual flags with
    | ok h3 => simp [hho]
    | error e =>
      simp [hho]
      exact Or.inr (host_open_error _ _ _ _ hho)

/-- C3 (amended): while the readiness flag is false, `getattr` and
`readdir` on non-root paths and `open` and `create` on any path return
the retryable busy error, while root `getattr` and root `readdir`
still answer (synthetic directory, empty listing); the remaining
handlers — `dmsa_unlink` among them — carry no readiness guard at all.
Once the flag is set, none of the four guarded handlers returns busy. -/
theorem C3_readiness_gate (st : FuseState) (h : HostFS) (now : Int) (p : String)
    (flags : OpenFlags) (mode : Nat)
    (hdepth : path_depth p ≤ MAX_PATH_DEPTH) :
    (st.index_ready = false →
      (p ≠ "/" → dmsa_getattr st h now p = Except.error (-EBUSY))
      ∧ (p ≠ "/" → dmsa_readdir st h p = Except.error (-EBUSY))
      ∧ dmsa_getattr st h now "/" = Except.ok (root_stat st now)
      ∧ dmsa_readdir st h "/" = Except.ok [".", ".."]
      ∧ (dmsa_open st h p flags).1 = -EBUSY
      ∧ (dmsa_create st h p mode).1 = -EBUSY)
    ∧ (st.index_ready = true →
      dmsa_getattr st h now p ≠ Except.error (-EBUSY)
      ∧ dmsa_readdir st h p ≠ Except.error (-EBUSY)
      ∧ (dmsa_open st h p flags).1 ≠ -EBUSY
      ∧ (dmsa_create st h p mode).1 ≠ -EBUSY) := by
  have hdep2 : ¬ (MAX_PATH_DEPTH < path_depth p) := by omega
  have hdeproot : ¬ (MAX_PATH_DEPTH < path_depth "/") := by
    have : path_depth "/" = 0 := by decide
    omega
  constructor
  · intro hnr
    refine ⟨?_, ?_, ?_, ?_, ?_, ?_⟩
    · intro hproot
      have hpb : (p == "/") = false := by simp [hproot]
      simp [dmsa_getattr, hdep2, hpb, hnr]
    · intro hproot
      have hpb : (p == "/") = false := by simp [hproot]
      simp [dmsa_readdir, hdep2, hpb, hnr]
    · simp [dmsa_getattr, hdeproot]
    · simp [dmsa_readdir, hdeproot, hnr]
    · simp [dmsa_open, hdep2, hnr]
    · simp [dmsa_create, hnr]
  · intro hr
    refine ⟨?_, ?_, ?_, ?_⟩
    · intro hcontra
      by_cases hpb : (p == "/") = true
      · simp [dmsa_getattr, hdep2, hpb] at hcontra
      · have hpb2 : (p == "/") = false := by simpa using hpb
        simp only [dmsa_getattr, if_neg hdep2, hpb2, Bool.false_eq_true, if_false,
          hr, Bool.not_true] at hcontra
        cases hres : resolve_actual_path h st p with
        | none =>
          simp [hres, ENOENT, EBUSY] at hcontra
        | some a =>
          simp only [hres] at hcontra
          cases hsa : hstat h a with
          | none => simp [hsa, ENOENT, EBUSY] at hcontra
          | some s => simp [hsa] at hcontra
    · intro hcontra
      simp only [dmsa_readdir, if_neg hdep2, hr, Bool.not_true,
        Bool.false_eq_true, if_false] at hcontra
      simp at hcontra
    · intro hcontra
      simp only [dmsa_open, if_neg hdep2, hr, Bool.not_true,
        Bool.false_eq_true, if_false] at hcontra
      cases hacq : acquire_open_slot st.open_count with
      | none =>
        rw [hacq] at hcontra
        simp [EMFILE, EBUSY] at hcontra
      | some c =>
        rw [hacq] at hcontra
        cases hres : resolve_actual_path h st p with
        | none =>
          simp only [hres] at hcontra
          by_cases hw : (flags.o_creat || flags.o_wronly || flags.o_rdwr) = true
          · simp only [hw, if_true] at hcontra
            rcases dmsa_open_tail_res { st with open_count := c }
                (open_create_empty st h (get_local_path st p)) p
                (get_local_path st p) flags with h0 | h0 <;>
              rw [hr] at h0 <;> rw [h0] at hcontra <;> simp [ENOENT, EBUSY] at hcontra
          · simp only [hw, Bool.false_eq_true, if_false] at hcontra
            simp [ENOENT, EBUSY] at hcontra
        | some actual =>
          simp only [hres] at hcontra
          rcases dmsa_open_tail_res { st with open_count := c } h p actual flags with
            h0 | h0 <;> rw [hr] at h0 <;> rw [h0] at hcontra <;>
            simp [ENOENT, EBUSY] at hcontra
    · intro hcontra
      by_cases hros : st.readonly = true
      · simp [dmsa_create, hr, hros, EROFS, EBUSY] at hcontra
      · have hros2 : st.readonly = false := by simpa using hros
        simp [dmsa_create, hr, hros2, EBUSY] at hcontra

/-- C3 counterexample fixture: the mount before the index is ready. -/
def c3St : FuseState :=
  { exSt with index_ready := false }

/-- C3 counterexample: the claim asserts every handler on a non-root
path returns retryable-busy while readiness is false, but `dmsa_unlink`
has no readiness guard: with readiness off it proceeds and returns 0. -/
theorem C3_counterexample :
    c3St.index_ready = false ∧
    (dmsa_unlink c3St c2H "/stale" false false).1 = 0 ∧
    (dmsa_unlink c3St c2H "/stale" false false).1 ≠ -EBUSY := by
  decide

/-- C3 witness: the guarded handlers at a concrete not-ready state. -/
theorem C3_readiness_gate_witness :
    (c3St.index_ready = false →
      ("/x" ≠ "/" → dmsa_getattr c3St c2H 7 "/x" = Except.error (-EBUSY))
      ∧ ("/x" ≠ "/" → dmsa_readdir c3St c2H "/x" = Except.error (-EBUSY))
      ∧ dmsa_getattr c3St c2H 7 "/" = Except.ok (root_stat c3St 7)
      ∧ dmsa_readdir c3St c2H "/" = Except.ok [".", ".."]
      ∧ (dmsa_open c3St c2H "/x" ⟨false, false, false, false⟩).1 = -EBUSY
      ∧ (dmsa_create c3St c2H "/x" 0o644).1 = -EBUSY)
    ∧ (c3St.index_ready = true →
      dmsa_getattr c3St c2H 7 "/x" ≠ Except.error (-EBUSY)
      ∧ dmsa_readdir c3St c2H "/x" ≠ Except.error (-EBUSY)
      ∧ (dmsa_open c3St c2H "/x" ⟨false, false, false, false⟩).1 ≠ -EBUSY
      ∧ (dmsa_create c3St c2H "/x" 0o644).1 ≠ -EBUSY) :=
  C3_readiness_gate c3St c2H 7 "/x" ⟨false, false, false, false⟩ 0o644 (by decide)

/-! ## C4: the five-step delete sequence -/

/-- The `external_deleted` flag that `dmsa_unlink`/`dmsa_rmdir` compute:
true when the external removal succeeded (including `ENOENT`) or no
external path applies. -/
def external_deleted (st : FuseState) (h : HostFS) (p : String) (lf ef : Bool) :
    Bool :=
  match get_external_path st p with
  | none => true
  | some ep =>
    let h1 :=
      match hstat h (get_local_path st p) with
      | some _ => if lf then h else hremove h (get_local_path st p)
      | none => h
    !((hstat h1 ep).isSome && ef)

theorem list_remove_first_contains_self (l : List String) (p : String)
    (hnd : l.Nodup) : (list_remove_first l p).contains p = false := by
  induction l with
  | nil => rfl
  | cons x xs ih =>
    rcases List.nodup_cons.mp hnd with ⟨hx, hxs⟩
    by_cases hxp : x = p
    · subst hxp
      have hb : (x == x) = true := by simp
      simp only [list_remove_first, hb, if_true]
      simpa using hx
    · have hb : (x == p) = true → False := by simp [hxp]
      simp only [list_remove_first, if_neg hb]
      simp only [List.contains_cons]
      have : (p == x) = false := by simp [Ne.symm hxp]
      rw [this]
      simp only [Bool.false_or]
      exact ih hxs

theorem pending_delete_add_nodup (l : List String) (p : String)
    (hnd : l.Nodup) : (pending_delete_add l p).Nodup := by
  unfold pending_delete_add
  by_cases hc : l.contains p = true
  · have hm : p ∈ l := by simpa using hc
    simp [hm, hnd]
  · have hm : p ∉ l := by simpa using hc
    by_cases hlen : PENDING_DELETE_SIZE ≤ l.length
    · simp only [hc, if_false, hlen, if_true, Bool.false_eq_true]
      rw [List.nodup_append]
      refine ⟨(List.drop_sublist 1 l).nodup hnd, List.nodup_singleton p, ?_⟩
      intro a ha hb
      have : a = p := by simpa using hb
      subst this
      exact hm (List.mem_of_mem_drop ha)
    · simp only [hc, if_false, hlen, Bool.false_eq_true]
      rw [List.nodup_append]
      refine ⟨hnd, List.nodup_singleton p, ?_⟩
      intro a ha hb
      have : a = p := by simpa using hb
      subst this
      exact hm ha

theorem pending_remove_add_contains (l : List String) (p : String)
    (hnd : l.Nodup) :
    pending_delete_contains
      (pending_delete_remove (pending_delete_add l p) p) p = false := by
  unfold pending_delete_contains pending_delete_remove
  exact list_remove_first_contains_self _ _ (pending_delete_add_nodup l p hnd)

/-- C4: `dmsa_unlink` and `dmsa_rmdir` perform exactly the ordered
sequence add-pending, notify-deleted, remove-local (not-found ignored),
best-effort external removal (when an external path applies), and
clear-pending exactly when the external removal succeeded or no
external path applies; on external failure the entry stays in the
pending-delete set. -/
theorem C4_delete_sequence (st : FuseState) (h : HostFS) (p : String)
    (lf ef : Bool) (hro : st.readonly = false)
    (hsy : syncing_files_contains st.syncing_files p = false)
    (hnd : st.pending_delete.Nodup) :
    ((dmsa_unlink st h p lf ef).2.2.2 =
      [DeleteStep.addPending p, DeleteStep.notifyDeleted p false,
       DeleteStep.removeLocal (get_local_path st p)] ++
      (match get_external_path st p with
       | some ep =>
         [DeleteStep.removeExternal ep] ++
         (if external_deleted st h p lf ef then [DeleteStep.clearPending p] else [])
       | none => [DeleteStep.clearPending p]))
    ∧ ((dmsa_rmdir st h p lf ef).2.2.2 =
      [DeleteStep.addPending p, DeleteStep.notifyDeleted p true,
       DeleteStep.removeLocal (get_local_path st p)] ++
      (match get_external_path st p with
       | some ep =>
         [DeleteStep.removeExternal ep] ++
         (if external_deleted st h p lf ef then [DeleteStep.clearPending p] else [])
       | none => [DeleteStep.clearPending p]))
    ∧ (pending_delete_contains (dmsa_unlink st h p lf ef).2.1.pending_delete p =
        !(external_deleted st h p lf ef))
    ∧ (pending_delete_contains (dmsa_rmdir st h p lf ef).2.1.pending_delete p =
        !(external_deleted st h p lf ef)) := by
  rcases hlp : hstat h (get_local_path st p) with _ | s
  all_goals rcases hext : get_external_path st p with _ | ep
  · refine ⟨?_, ?_, ?_, ?_⟩ <;>
      simp [dmsa_unlink, dmsa_rmdir, external_deleted, hro, hsy, hlp, hext,
        pending_remove_add_contains _ _ hnd]
  · by_cases hcond : ((hstat h ep).isSome = true ∧ ef = true)
    · have hbool : ((hstat h ep).isSome && ef) = true := by
        simp [hcond.1, hcond.2]
      refine ⟨?_, ?_, ?_, ?_⟩ <;>
        simp [dmsa_unlink, dmsa_rmdir, external_deleted, hro, hsy, hlp, hext,
          hcond, hbool, pending_add_contains_self]
    · have hbool : ((hstat h ep).isSome && ef) = false := by
        rcases Decidable.not_and_iff_or_not.mp hcond with hn | hn
        · simp [Bool.and_eq_true, hn]
        · simp [Bool.and_eq_true, hn]
      refine ⟨?_, ?_, ?_, ?_⟩ <;>
        simp [dmsa_unlink, dmsa_rmdir, external_deleted, hro, hsy, hlp, hext,
          hcond, hbool, pending_remove_add_contains _ _ hnd]
  · by_cases hlf : lf = true
    · refine ⟨?_, ?_, ?_, ?_⟩ <;>
        simp [dmsa_unlink, dmsa_rmdir, external_deleted, hro, hsy, hlp, hext,
          hlf, pending_remove_add_contains _ _ hnd]
    · have hlf2 : lf = false := by simpa using hlf
      refine ⟨?_, ?_, ?_, ?_⟩ <;>
        simp [dmsa_unlink, dmsa_rmdir, external_deleted, hro, hsy, hlp, hext,
          hlf2, pending_remove_add_contains _ _ hnd]
  · by_cases hlf : lf = true
    · by_cases hcond : ((hstat h ep).isSome = true ∧ ef = true)
      · have hbool : ((hstat h ep).isSome && ef) = true := by
          simp [hcond.1, hcond.2]
        refine ⟨?_, ?_, ?_, ?_⟩ <;>
          simp [dmsa_unlink, dmsa_rmdir, external_deleted, hro, hsy, hlp, hext,
            hlf, hcond, hbool, pending_add_contains_self]
      · have hbool : ((hstat h ep).isSome && ef) = false := by
          rcases Decidable.not_and_iff_or_not.mp hcond with hn | hn
          · simp [Bool.and_eq_true, hn]
          · simp [Bool.and_eq_true, hn]
        refine ⟨?_, ?_, ?_, ?_⟩ <;>
          simp [dmsa_unlink, dmsa_rmdir, external_deleted, hro, hsy, hlp, hext,
            hlf, hcond, hbool, pending_remove_add_contains _ _ hnd]
    · have hlf2 : lf = false := by simpa using hlf
      by_cases hcond :
          ((hstat (hremove h (get_local_path st p)) ep).isSome = true ∧ ef = true)
      · have hbool : ((hstat (hremove h (get_local_path st p)) ep).isSome && ef) =
            true := by
          simp [hcond.1, hcond.2]
        refine ⟨?_, ?_, ?_, ?_⟩ <;>
          simp [dmsa_unlink, dmsa_rmdir, external_deleted, hro, hsy, hlp, hext,
            hlf2, hcond, hbool, pending_add_contains_self]
      · have hbool : ((hstat (hremove h (get_local_path st p)) ep).isSome && ef) =
            false := by
          rcases Decidable.not_and_iff_or_not.mp hcond with hn | hn
          · simp [Bool.and_eq_true, hn]
          · simp [Bool.and_eq_true, hn]
        refine ⟨?_, ?_, ?_, ?_⟩ <;>
          simp [dmsa_unlink, dmsa_rmdir, external_deleted, hro, hsy, hlp, hext,
            hlf2, hcond, hbool, pending_remove_add_contains _ _ hnd]

/-- C4 witness: the full sequence at a concrete state where the
external removal fails, so the pending entry stays. -/
theorem C4_delete_sequence_witness :
    ((dmsa_unlink exSt c2H "/stale" false true).2.2.2 =
      [DeleteStep.addPending "/stale", DeleteStep.notifyDeleted "/stale" false,
       DeleteStep.removeLocal (get_local_path exSt "/stale")] ++
      (match get_external_path exSt "/stale" with
       | some ep =>
         [DeleteStep.removeExternal ep] ++
         (if external_deleted exSt c2H "/stale" false true then
           [DeleteStep.clearPending "/stale"] else [])
       | none => [DeleteStep.clearPending "/stale"]))
    ∧ ((dmsa_rmdir exSt c2H "/stale" false true).2.2.2 =
      [DeleteStep.addPending "/stale", DeleteStep.notifyDeleted "/stale" true,
       DeleteStep.removeLocal (get_local_path exSt "/stale")] ++
      (match get_external_path exSt "/stale" with
       | some ep =>
         [DeleteStep.removeExternal ep] ++
         (if external_deleted exSt c2H "/stale" false true then
           [DeleteStep.clearPending "/stale"] else [])
       | none => [DeleteStep.clearPending "/stale"]))
    ∧ (pending_delete_contains
        (dmsa_unlink exSt c2H "/stale" false true).2.1.pending_delete "/stale" =
        !(external_deleted exSt c2H "/stale" false true))
    ∧ (pending_delete_contains
        (dmsa_rmdir exSt c2H "/stale" false true).2.1.pending_delete "/stale" =
        !(external_deleted exSt c2H "/stale" false true)) :=
  C4_delete_sequence exSt c2H "/stale" false true (by decide) (by decide)
    (by decide)

/-! ## C5: presented attributes -/

theorem exec_bit_cases (m : Nat) : m &&& S_IXUSR = 0 ∨ m &&& S_IXUSR = 64 := by
  have h64 : S_IXUSR = 2 ^ 6 := by decide
  rw [h64, Nat.and_two_pow]
  cases m.testBit 6 <;> simp

theorem S_ISREG_not_dir (m : Nat) (hreg : S_ISREG m = true) : S_ISDIR m = false := by
  unfold S_ISREG at hreg
  unfold S_ISDIR
  have hm : m &&& S_IFMT = S_IFREG := by simpa using hreg
  rw [hm]
  decide

theorem normalize_stat_spec (st : FuseState) (b : StatData) :
    (normalize_stat st b).st_uid = st.owner_uid ∧
    (normalize_stat st b).st_gid = st.owner_gid ∧
    (normalize_stat st b).st_size = b.st_size ∧
    (normalize_stat st b).st_nlink = b.st_nlink ∧
    (normalize_stat st b).st_atime = b.st_atime ∧
    (normalize_stat st b).st_mtime = b.st_mtime ∧
    (normalize_stat st b).st_ctime = b.st_ctime ∧
    (S_ISDIR b.st_mode = true → (normalize_stat st b).st_mode = S_IFDIR ||| 0o755) ∧
    (S_ISDIR b.st_mode = false →
      (normalize_stat st b).st_mode = S_IFREG ||| 0o644 ||| (b.st_mode &&& S_IXUSR)) := by
  unfold normalize_stat
  by_cases hdir : S_ISDIR b.st_mode = true
  · simp [hdir]
  · have hdir2 : S_ISDIR b.st_mode = false := by simpa using hdir
    simp [hdir2]

/-- C5: whenever non-root `getattr` succeeds, the presented stat carries
the mount owner as uid/gid (never the backing owner), permission bits
exactly 0755 for directories and 0644 plus the backing user-execute bit
for regular files, with size, times and nlink passed through from the
backing stat; the synthetic root stat also carries the mount owner and
0755. -/
theorem C5_presented_attributes (st : FuseState) (h : HostFS) (now : Int)
    (p a : String) (b s : StatData)
    (hdepth : path_depth p ≤ MAX_PATH_DEPTH)
    (hroot : p ≠ "/")
    (hready : st.index_ready = true)
    (hres : resolve_actual_path h st p = some a)
    (hsb : hstat h a = some b)
    (hok : dmsa_getattr st h now p = Except.ok s) :
    s.st_uid = st.owner_uid ∧ s.st_gid = st.owner_gid ∧
    (S_ISDIR b.st_mode = true → s.st_mode &&& 0o777 = 0o755) ∧
    (S_ISREG b.st_mode = true →
      s.st_mode &&& 0o777 = 0o644 ||| (b.st_mode &&& S_IXUSR)) ∧
    s.st_size = b.st_size ∧ s.st_nlink = b.st_nlink ∧
    s.st_atime = b.st_atime ∧ s.st_mtime = b.st_mtime ∧ s.st_ctime = b.st_ctime ∧
    (root_stat st now).st_uid = st.owner_uid ∧
    (root_stat st now).st_gid = st.owner_gid ∧
    (root_stat st now).st_mode &&& 0o777 = 0o755 := by
  have hdep2 : ¬ MAX_PATH_DEPTH < path_depth p := by omega
  have hpb : (p == "/") = false := by simp [hroot]
  simp only [dmsa_getattr, if_neg hdep2, hpb, Bool.false_eq_true, if_false,
    hready, Bool.not_true, hres, hsb] at hok
  have hs : s = normalize_stat st b := (Except.ok.inj hok).symm
  subst hs
  obtain ⟨hu, hg, hsz, hnl, hat, hmt, hct, hdm, hrm⟩ := normalize_stat_spec st b
  refine ⟨hu, hg, ?_, ?_, hsz, hnl, hat, hmt, hct, rfl, rfl, ?_⟩
  case refine_3 =>
    have hrs : (root_stat st now).st_mode = S_IFDIR ||| 0o755 := rfl
    rw [hrs]
    decide
  · intro hdir
    rw [hdm hdir]
    decide
  · intro hreg
    rw [hrm (S_ISREG_not_dir _ hreg)]
    rcases exec_bit_cases b.st_mode with he | he <;> rw [he] <;> decide

/-- C5 witness: the presented attributes of `/a` (a regular file backed
by the local tier) at the concrete example state. -/
theorem C5_presented_attributes_witness :
    (normalize_stat exSt exFile).st_uid = exSt.owner_uid ∧
    (normalize_stat exSt exFile).st_gid = exSt.owner_gid ∧
    (S_ISDIR exFile.st_mode = true →
      (normalize_stat exSt exFile).st_mode &&& 0o777 = 0o755) ∧
    (S_ISREG exFile.st_mode = true →
      (normalize_stat exSt exFile).st_mode &&& 0o777 =
        0o644 ||| (exFile.st_mode &&& S_IXUSR)) ∧
    (normalize_stat exSt exFile).st_size = exFile.st_size ∧
    (normalize_stat exSt exFile).st_nlink = exFile.st_nlink ∧
    (normalize_stat exSt exFile).st_atime = exFile.st_atime ∧
    (normalize_stat exSt exFile).st_mtime = exFile.st_mtime ∧
    (normalize_stat exSt exFile).st_ctime = exFile.st_ctime ∧
    (root_stat exSt 7).st_uid = exSt.owner_uid ∧
    (root_stat exSt 7).st_gid = exSt.owner_gid ∧
    (root_stat exSt 7).st_mode &&& 0o777 = 0o755 :=
  C5_presented_attributes exSt exH 7 "/a" (get_local_path exSt "/a") exFile
    (normalize_stat exSt exFile) (by decide) (by decide) (by decide) (by decide)
    (by decide) (by rfl)

/-! ## C6: syncing mask -/

theorem dmsa_write_not_busy (st : FuseState) (h : HostFS) (p : String)
    (data : List Nat) (off : Nat) (fh : Option String)
    (hro : st.readonly = false)
    (hsy : syncing_files_contains st.syncing_files p = false) :
    (dmsa_write st h p data off fh).1 ≠ -EBUSY := by
  intro hcontra
  cases fh with
  | some target =>
    simp only [dmsa_write, hro, Bool.false_eq_true, if_false, hsy] at hcontra
    cases hpw : host_pwrite h target off data with
    | ok h2 =>
      rw [hpw] at hcontra
      simp at hcontra
      have hnn : (0 : Int) ≤ (data.length : Int) := Int.ofNat_nonneg _
      rw [hcontra] at hnn
      simp [EBUSY] at hnn
    | error e =>
      rw [hpw] at hcontra
      simp at hcontra
      unfold host_pwrite at hpw
      cases hst : hstat h target with
      | none =>
        rw [hst] at hpw
        have he : e = -EBADF := (Except.error.inj hpw).symm
        rw [he] at hcontra
        simp [EBADF, EBUSY] at hcontra
      | some s =>
        rw [hst] at hpw
        simp at hpw
  | none =>
    simp only [dmsa_write, hro, Bool.false_eq_true, if_false, hsy] at hcontra
    cases hpw : host_pwrite
        (if (hstat (ensure_parent_directory st.owner_uid st.owner_gid h
              (get_local_path st p)) (get_local_path st p)).isSome then
          ensure_parent_directory st.owner_uid st.owner_gid h (get_local_path st p)
        else
          hset (ensure_parent_directory st.owner_uid st.owner_gid h
            (get_local_path st p)) (get_local_path st p) (mkFileStat 0o644 []))
        (get_local_path st p) off data with
    | ok h2 =>
      rw [hpw] at hcontra
      simp at hcontra
      have hnn : (0 : Int) ≤ (data.length : Int) := Int.ofNat_nonneg _
      rw [hcontra] at hnn
      simp [EBUSY] at hnn
    | error e =>
      rw [hpw] at hcontra
      simp at hcontra
      unfold host_pwrite at hpw
      cases hst : hstat
          (if (hstat (ensure_parent_directory st.owner_uid st.owner_gid h
                (get_local_path st p)) (get_local_path st p)).isSome then
            ensure_parent_directory st.owner_uid st.owner_gid h (get_local_path st p)
          else
            hset (ensure_parent_directory st.owner_uid st.owner_gid h
              (get_local_path st p)) (get_local_path st p) (mkFileStat 0o644 []))
          (get_local_path st p) with
      | none =>
        rw [hst] at hpw
        have he : e = -EBADF := (Except.error.inj hpw).symm
        rw [he] at hcontra
        simp [EBADF, EBUSY] at hcontra
      | some s =>
        rw [hst] at hpw
        simp at hpw

/-- C6 (amended): while a path is in the syncing set, exactly the four
handlers that consult the set — `write`, `truncate`, `unlink`, `rmdir` —
fail with the retryable busy error and leave both tiers unchanged;
`create` (and likewise `rename`, `mkdir`, the attribute setters) carries
no syncing check and proceeds; removing the path from the set
re-enables mutation. -/
theorem C6_syncing_mask (st : FuseState) (h : HostFS) (p : String)
    (data : List Nat) (off : Nat) (fh : Option String) (size : Nat)
    (lf ef : Bool) (mode : Nat)
    (hro : st.readonly = false)
    (hsy : syncing_files_contains st.syncing_files p = true) :
    dmsa_write st h p data off fh = (-EBUSY, h)
    ∧ dmsa_truncate st h p size = (-EBUSY, h)
    ∧ dmsa_unlink st h p lf ef = (-EBUSY, st, h, [])
    ∧ dmsa_rmdir st h p lf ef = (-EBUSY, st, h, [])
    ∧ (st.index_ready = true → (dmsa_create st h p mode).1 = 0)
    ∧ (st.syncing_files.Nodup →
        (dmsa_write
          { st with syncing_files := syncing_files_remove st.syncing_files p }
          h p data off fh).1 ≠ -EBUSY) := by
  refine ⟨?_, ?_, ?_, ?_, ?_, ?_⟩
  · simp [dmsa_write, hro, hsy]
  · simp [dmsa_truncate, hro, hsy]
  · simp [dmsa_unlink, hro, hsy]
  · simp [dmsa_rmdir, hro, hsy]
  · intro hready
    by_cases hros : st.readonly = true
    · rw [hros] at hro
      cases hro
    · simp [dmsa_create, hready, hros]
  · intro hnd
    exact dmsa_write_not_busy _ h p data off fh hro
      (list_remove_first_contains_self _ _ hnd)

/-- C6 counterexample fixture: `/a` is being synced. -/
def c6St : FuseState :=
  { exSt with syncing_files := ["/a"] }

/-- C6 counterexample: the claim asserts every mutating operation on a
syncing path fails busy and leaves both tiers unchanged, but
`dmsa_create` has no syncing check: it succeeds and truncates the local
copy. -/
theorem C6_counterexample :
    syncing_files_contains c6St.syncing_files "/a" = true ∧
    (dmsa_create c6St exH "/a" 0o600).1 = 0 ∧
    (dmsa_create c6St exH "/a" 0o600).1 ≠ -EBUSY ∧
    hstat (dmsa_create c6St exH "/a" 0o600).2.2.1 (get_local_path c6St "/a") ≠
      hstat exH (get_local_path c6St "/a") := by
  decide

/-- C6 witness: the amended conclusions at the concrete syncing state. -/
theorem C6_syncing_mask_witness :
    dmsa_write c6St exH "/a" [1] 0 (some "/loc/a") = (-EBUSY, exH)
    ∧ dmsa_truncate c6St exH "/a" 0 = (-EBUSY, exH)
    ∧ dmsa_unlink c6St exH "/a" false false = (-EBUSY, c6St, exH, [])
    ∧ dmsa_rmdir c6St exH "/a" false false = (-EBUSY, c6St, exH, [])
    ∧ (c6St.index_ready = true → (dmsa_create c6St exH "/a" 0o644).1 = 0)
    ∧ (c6St.syncing_files.Nodup →
        (dmsa_write
          { c6St with syncing_files := syncing_files_remove c6St.syncing_files "/a" }
          exH "/a" [1] 0 (some "/loc/a")).1 ≠ -EBUSY) :=
  C6_syncing_mask c6St exH "/a" [1] 0 (some "/loc/a") 0 false false 0o644
    (by decide) (by decide)

/-! ## C7: open-slot limiter -/

/-- The two operations performed on the open-slot counter. -/
inductive SlotOp where
  | acq
  | rel
deriving Repr, DecidableEq

/-- Effect of one counter operation: a failed acquire leaves the counter
unchanged; release saturates at zero. -/
def applySlotOp (c : Int) : SlotOp → Int
  | SlotOp.acq =>
    match acquire_open_slot c with
    | none => c
    | some c2 => c2
  | SlotOp.rel => release_open_slot c

def runSlotOps (ops : List SlotOp) : Int :=
  ops.foldl applySlotOp 0

theorem applySlotOp_bounds (c : Int) (op : SlotOp)
    (hc : 0 ≤ c ∧ c ≤ MAX_CONCURRENT_OPENS) :
    0 ≤ applySlotOp c op ∧ applySlotOp c op ≤ MAX_CONCURRENT_OPENS := by
  cases op with
  | acq =>
    unfold applySlotOp acquire_open_slot
    by_cases hm : MAX_CONCURRENT_OPENS ≤ c
    · simp [hm]
      exact hc
    · simp only [hm, if_false]
      unfold MAX_CONCURRENT_OPENS at *
      omega
  | rel =>
    unfold applySlotOp release_open_slot
    by_cases hz : 0 < c
    · simp only [hz, if_true]
      unfold MAX_CONCURRENT_OPENS at *
      omega
    · simp only [hz, if_false]
      exact hc

theorem runSlotOps_bounds (ops : List SlotOp) :
    0 ≤ runSlotOps ops ∧ runSlotOps ops ≤ MAX_CONCURRENT_OPENS := by
  have aux : ∀ (l : List SlotOp) (c : Int),
      0 ≤ c ∧ c ≤ MAX_CONCURRENT_OPENS →
      0 ≤ l.foldl applySlotOp c ∧ l.foldl applySlotOp c ≤ MAX_CONCURRENT_OPENS := by
    intro l
    induction l with
    | nil => intro c hc; simpa using hc
    | cons op l ih =>
      intro c hc
      rw [List.foldl_cons]
      exact ih _ (applySlotOp_bounds c op hc)
  exact aux ops 0 (by unfold MAX_CONCURRENT_OPENS; omega)

theorem dmsa_open_tail_success_state (st1 : FuseState) (h : HostFS)
    (p actual : String) (flags : OpenFlags)
    (hok : (dmsa_open_tail st1 h p actual flags).1 = 0) :
    (dmsa_open_tail st1 h p actual flags).2.1 = st1 := by
  unfold dmsa_open_tail at hok ⊢
  by_cases hw : (wantsWrite flags && actual != get_local_path st1 p) = true
  · simp only [hw, if_true] at hok ⊢
    cases hho : host_open
        (copy_file (ensure_parent_directory st1.owner_uid st1.owner_gid h
          (get_local_path st1 p)) actual (get_local_path st1 p) 0o644)
        (get_local_path st1 p) flags with
    | ok h3 => simp [hho]
    | error e =>
      rw [hho] at hok
      have he : e = -ENOENT := host_open_error _ _ _ _ hho
      rw [he] at hok
      simp [ENOENT] at hok
  · simp only [hw, Bool.false_eq_true, if_false] at hok ⊢
    cases hho : host_open h actual flags with
    | ok h3 => simp [hho]
    | error e =>
      rw [hho] at hok
      have he : e = -ENOENT := host_open_error _ _ _ _ hho
      rw [he] at hok
      simp [ENOENT] at hok

/-- C7 (amended): the open-slot counter never exceeds 256 and never
drops below 0 under any sequence of acquire/release operations; at 256
outstanding slots the next `open` fails with too-many-open-files; a
successful `open` acquires exactly one slot and `release` returns one
(saturating at zero).  But `create` acquires no slot at all, so the
counter does not always equal the number of outstanding handles. -/
theorem C7_open_slots (ops : List SlotOp) (st : FuseState) (h : HostFS)
    (p : String) (flags : OpenFlags) (mode : Nat) :
    (0 ≤ runSlotOps ops ∧ runSlotOps ops ≤ MAX_CONCURRENT_OPENS)
    ∧ ((dmsa_open st h p flags).1 = 0 →
        (dmsa_open st h p flags).2.1.open_count = st.open_count + 1)
    ∧ (st.open_count = MAX_CONCURRENT_OPENS → st.index_ready = true →
        path_depth p ≤ MAX_PATH_DEPTH → (dmsa_open st h p flags).1 = -EMFILE)
    ∧ (dmsa_create st h p mode).2.1.open_count = st.open_count
    ∧ (dmsa_release st flags).2.1.open_count =
        (if 0 < st.open_count then st.open_count - 1 else st.open_count) := by
  refine ⟨runSlotOps_bounds ops, ?_, ?_, ?_, ?_⟩
  · intro hok
    by_cases hdp : MAX_PATH_DEPTH < path_depth p
    · simp [dmsa_open, hdp, ELOOP] at hok
    · by_cases hr : st.index_ready = true
      · simp only [dmsa_open, if_neg hdp, hr, Bool.not_true, Bool.false_eq_true,
          if_false] at hok ⊢
        cases hacq : acquire_open_slot st.open_count with
        | none =>
          rw [hacq] at hok
          simp [EMFILE] at hok
        | some c =>
          have hc : c = st.open_count + 1 := by
            unfold acquire_open_slot at hacq
            by_cases hm : MAX_CONCURRENT_OPENS ≤ st.open_count
            · simp [hm] at hacq
            · simp [hm] at hacq
              exact hacq.symm
          simp only [hacq] at hok ⊢
          cases hres : resolve_actual_path h st p with
          | none =>
            simp only [hres] at hok ⊢
            by_cases hwf : (flags.o_creat || flags.o_wronly || flags.o_rdwr) = true
            · simp only [hwf, if_true] at hok ⊢
              rw [dmsa_open_tail_success_state _ _ _ _ _ hok, hc]
            · simp only [hwf, Bool.false_eq_true, if_false] at hok
              simp [ENOENT] at hok
          | some actual =>
            simp only [hres] at hok ⊢
            rw [dmsa_open_tail_success_state _ _ _ _ _ hok, hc]
      · have hr2 : st.index_ready = false := by simpa using hr
        simp [dmsa_open, hdp, hr2, EBUSY] at hok
  · intro hfull hr hdep
    have hdp : ¬ MAX_PATH_DEPTH < path_depth p := by omega
    have hacq : acquire_open_slot st.open_count = none := by
      unfold acquire_open_slot
      rw [hfull]
      simp
    simp [dmsa_open, hdp, hr, hacq]
  · by_cases hr : st.index_ready = true
    · by_cases hros : st.readonly = true
      · simp [dmsa_create, hr, hros]
      · have hros2 : st.readonly = false := by simpa using hros
        simp [dmsa_create, hr, hros2]
    · have hr2 : st.index_ready = false := by simpa using hr
      simp [dmsa_create, hr2]
  · simp [dmsa_release, release_open_slot]

/-- C7 counterexample: a successful `create` leaves the counter
untouched, contradicting the claim that every successful create
acquires exactly one open slot (and hence that the counter equals the
number of outstanding handles). -/
theorem C7_counterexample :
    (dmsa_create exSt exH "/n" 0o644).1 = 0 ∧
    (dmsa_create exSt exH "/n" 0o644).2.1.open_count = exSt.open_count ∧
    (dmsa_create exSt exH "/n" 0o644).2.1.open_count ≠ exSt.open_count + 1 := by
  decide

/-- C7 witness fixture: the mount at the 256-slot ceiling. -/
def c7St : FuseState :=
  { exSt with open_count := 256 }

/-- C7 witness: the bounds, the EMFILE ceiling, the acquire-on-success
increment, and create leaving the counter alone, at concrete inputs. -/
theorem C7_open_slots_witness :
    (0 ≤ runSlotOps [SlotOp.acq, SlotOp.rel, SlotOp.rel] ∧
      runSlotOps [SlotOp.acq, SlotOp.rel, SlotOp.rel] ≤ MAX_CONCURRENT_OPENS) ∧
    (dmsa_open c7St exH "/a" ⟨false, false, false, false⟩).1 = -EMFILE ∧
    (dmsa_open exSt exH "/a" ⟨false, false, false, false⟩).2.1.open_count =
      exSt.open_count + 1 ∧
    (dmsa_create exSt exH "/a" 0o644).2.1.open_count = exSt.open_count :=
  ⟨(C7_open_slots [SlotOp.acq, SlotOp.rel, SlotOp.rel] exSt exH "/a"
      ⟨false, false, false, false⟩ 0o644).1,
   (C7_open_slots [] c7St exH "/a" ⟨false, false, false, false⟩ 0o644).2.2.1
     (by decide) (by decide) (by decide),
   (C7_open_slots [] exSt exH "/a" ⟨false, false, false, false⟩ 0o644).2.1
     (by decide),
   (C7_open_slots [] exSt exH "/a" ⟨false, false, false, false⟩ 0o644).2.2.2.1⟩

/-! ## C8: copy-up engine -/

theorem hstat_fix_ownership_other (u g : Nat) (h : HostFS) (q k : String)
    (hne : k ≠ q) : hstat (fix_ownership u g h q) k = hstat h k := by
  unfold fix_ownership
  by_cases hc : (u != 0 || g != 0) = true
  · simp only [hc, if_true]
    cases hq : hstat h q with
    | some s => exact hstat_hset_other h q k _ hne
    | none => rfl
  · simp only [hc, Bool.false_eq_true, if_false]

theorem hstat_fix_ownership_self (u g : Nat) (h : HostFS) (q : String)
    (s : StatData) (hq : hstat h q = some s) (hu : u ≠ 0) :
    hstat (fix_ownership u g h q) q =
      some { s with st_uid := u, st_gid := g } := by
  unfold fix_ownership
  have hc : (u != 0 || g != 0) = true := by simp [hu]
  simp only [hc, if_true, hq]
  exact hstat_hset_self h q _

theorem hstat_ensure_parent (u g : Nat) (h : HostFS) (path k : String)
    (s : StatData) (hk : hstat h k = some s) :
    hstat (ensure_parent_directory u g h path) k = some s := by
  unfold ensure_parent_directory
  by_cases hpar : (hstat h ⟨dirnameData path.data⟩).isSome = true
  · simp only [hpar, if_true]
    exact hk
  · simp only [hpar, Bool.false_eq_true, if_false]
    have aux : ∀ (l : List (List Char)) (acc : HostFS),
        hstat acc k = some s →
        hstat (l.foldl (fun acc q =>
          if (hstat acc ⟨q⟩).isSome then acc
          else fix_ownership u g (hset acc ⟨q⟩ (mkDirStat 0o755)) ⟨q⟩) acc) k =
          some s := by
      intro l
      induction l with
      | nil => intro acc hacc; exact hacc
      | cons q l ih =>
        intro acc hacc
        rw [List.foldl_cons]
        apply ih
        by_cases hq : (hstat acc ⟨q⟩).isSome = true
        · simp only [hq, if_true]
          exact hacc
        · simp only [hq, Bool.false_eq_true, if_false]
          have hkq : k ≠ (⟨q⟩ : String) := by
            intro hcontra
            apply hq
            rw [← hcontra, hacc]
            rfl
          rw [hstat_fix_ownership_other u g _ _ _ hkq,
            hstat_hset_other acc _ k _ hkq]
          exact hacc
    exact aux _ h hk

/-- The copy-up block of `dmsa_open` (at a concrete mode 0644), of
`dmsa_truncate` and of `dmsa_rename` (at the backing mode): the local
destination receives exactly the source bytes. -/
theorem copy_file_spec (h : HostFS) (src dst : String) (mode : Nat)
    (b : StatData) (hs : hstat h src = some b) :
    hstat (copy_file h src dst mode) dst =
      some (mkFileStat mode b.content) := by
  unfold copy_file
  simp only [hs, copyChunks_eq]
  exact hstat_hset_self h dst _

theorem copy_file_other (h : HostFS) (src dst k : String) (mode : Nat)
    (hne : k ≠ dst) : hstat (copy_file h src dst mode) k = hstat h k := by
  unfold copy_file
  cases hs : hstat h src with
  | none => rfl
  | some b => exact hstat_hset_other h dst k _ hne

theorem copyup_open_spec (st : FuseState) (h : HostFS) (p : String)
    (b : StatData) (flags : OpenFlags) (ep : String)
    (hready : st.index_ready = true)
    (hdepth : path_depth p ≤ MAX_PATH_DEPTH)
    (hslot : st.open_count < MAX_CONCURRENT_OPENS)
    (hev : is_evicting st p = false)
    (hlp : hstat h (get_local_path st p) = none)
    (hep : get_external_path st p = some ep)
    (hb : hstat h ep = some b)
    (hw : wantsWrite flags = true)
    (ht : flags.o_trunc = false)
    (hne : ep ≠ get_local_path st p) :
    (dmsa_open st h p flags).1 = 0 ∧
    hstat (dmsa_open st h p flags).2.2.1 (get_local_path st p) =
      some (mkFileStat 0o644 b.content) ∧
    (mkFileStat 0o644 b.content).st_mode = S_IFREG ||| 0o644 ∧
    (mkFileStat 0o644 b.content).st_uid = PROC_UID ∧
    hstat (dmsa_open st h p flags).2.2.1 ep = some b := by
  have hdp : ¬ (MAX_PATH_DEPTH < path_depth p) := by omega
  have hres : resolve_actual_path h st p = some ep := by
    unfold resolve_actual_path
    simp only [hev, Bool.false_eq_true, if_false, hlp, Option.isSome_none, hep, hb]
    simp
  have hacq : acquire_open_slot st.open_count = some (st.open_count + 1) := by
    unfold acquire_open_slot
    rw [if_neg (Int.not_le.mpr hslot)]
  have hh2 : hstat (copy_file (ensure_parent_directory st.owner_uid st.owner_gid h
      (get_local_path st p)) ep (get_local_path st p) 0o644) (get_local_path st p) =
      some (mkFileStat 0o644 b.content) :=
    copy_file_spec _ _ _ _ b (hstat_ensure_parent _ _ _ _ _ b hb)
  have hext2 : hstat (copy_file (ensure_parent_directory st.owner_uid st.owner_gid h
      (get_local_path st p)) ep (get_local_path st p) 0o644) ep = some b := by
    rw [copy_file_other _ _ _ _ _ hne]
    exact hstat_ensure_parent _ _ _ _ _ b hb
  have hwb : (wantsWrite flags && ep != get_local_path st p) = true := by
    simp [hw, hne]
  have hopen : dmsa_open st h p flags =
      (0, { st with open_count := st.open_count + 1 },
       copy_file (ensure_parent_directory st.owner_uid st.owner_gid h
         (get_local_path st p)) ep (get_local_path st p) 0o644,
       some (get_local_path st p)) := by
    have hnr : (!st.index_ready) = false := by rw [hready]; rfl
    simp only [dmsa_open, if_neg hdp, hnr, Bool.false_eq_true, if_false, hacq,
      hres]
    unfold dmsa_open_tail
    have hgl : get_local_path { st with open_count := st.open_count + 1 } p =
        get_local_path st p := rfl
    have hou : ({ st with open_count := st.open_count + 1 } : FuseState).owner_uid =
        st.owner_uid := rfl
    have hog : ({ st with open_count := st.open_count + 1 } : FuseState).owner_gid =
        st.owner_gid := rfl
    rw [hgl, hou, hog]
    simp only [hwb, if_true]
    unfold host_open
    simp only [hh2, ht, Bool.false_and, Bool.false_eq_true, if_false]
  rw [hopen]
  refine ⟨rfl, hh2, ?_, rfl, hext2⟩
  rw [show (mkFileStat 0o644 b.content).st_mode =
    S_IFREG ||| (0o644 &&& 0o7777) from rfl]
  decide

theorem copyup_truncate_spec (st : FuseState) (h : HostFS) (p : String)
    (b : StatData) (size : Nat) (ep : String)
    (hro : st.readonly = false)
    (hsy : syncing_files_contains st.syncing_files p = false)
    (hlp : hstat h (get_local_path st p) = none)
    (hep : get_external_path st p = some ep)
    (hb : hstat h ep = some b)
    (hne : ep ≠ get_local_path st p) :
    (dmsa_truncate st h p size).1 = 0 ∧
    hstat (dmsa_truncate st h p size).2 (get_local_path st p) =
      some { mkFileStat b.st_mode b.content with
             content := truncContent b.content size, st_size := size } ∧
    (mkFileStat b.st_mode b.content).st_mode =
      S_IFREG ||| (b.st_mode &&& 0o7777) ∧
    (mkFileStat b.st_mode b.content).st_uid = PROC_UID ∧
    hstat (dmsa_truncate st h p size).2 ep = some b := by
  have hh1 : hstat (copy_file (ensure_parent_directory st.owner_uid st.owner_gid h
      (get_local_path st p)) ep (get_local_path st p) b.st_mode)
      (get_local_path st p) = some (mkFileStat b.st_mode b.content) :=
    copy_file_spec _ _ _ _ b (hstat_ensure_parent _ _ _ _ _ b hb)
  have hext1 : hstat (copy_file (ensure_parent_directory st.owner_uid st.owner_gid h
      (get_local_path st p)) ep (get_local_path st p) b.st_mode) ep = some b := by
    rw [copy_file_other _ _ _ _ _ hne]
    exact hstat_ensure_parent _ _ _ _ _ b hb
  have htr : dmsa_truncate st h p size =
      (0, hset (copy_file (ensure_parent_directory st.owner_uid st.owner_gid h
        (get_local_path st p)) ep (get_local_path st p) b.st_mode)
        (get_local_path st p)
        { mkFileStat b.st_mode b.content with
          content := truncContent (mkFileStat b.st_mode b.content).content size,
          st_size := size }) := by
    simp only [dmsa_truncate, hro, Bool.false_eq_true, if_false, hsy, hlp,
      Option.isSome_none, hep, hb, hh1]
  rw [htr]
  refine ⟨rfl, ?_, rfl, rfl, ?_⟩
  · exact hstat_hset_self _ _ _
  · exact (hstat_hset_other _ _ _ _ hne).trans hext1

theorem rename_external_phase_preserves (st : FuseState) (h : HostFS)
    (src dst k : String) (s : StatData) (hk : hstat h k = some s)
    (hkef : ∀ ef, get_external_path st src = some ef → k ≠ ef)
    (hket : ∀ et, get_external_path st dst = some et → k ≠ et) :
    hstat (rename_external_phase st h src dst) k = some s := by
  unfold rename_external_phase
  cases hef : get_external_path st src with
  | none => simp only [hef]; exact hk
  | some ef =>
    cases het : get_external_path st dst with
    | none => simp only [hef, het]; exact hk
    | some et =>
      simp only [hef, het]
      have hpk : ∀ hp : HostFS, hstat hp k = some s →
          hstat (match host_rename hp ef et with
                 | Except.ok h5 => h5
                 | Except.error _ => hp) k = some s := by
        intro hp hpk
        cases hr : host_rename hp ef et with
        | error e => simp only [hr]; exact hpk
        | ok h5 =>
          simp only [hr]
          unfold host_rename at hr
          cases hsef : hstat hp ef with
          | none => rw [hsef] at hr; cases hr
          | some sef =>
            rw [hsef] at hr
            have h5eq : h5 = hset (hremove hp ef) et sef := (Except.ok.inj hr).symm
            rw [h5eq, hstat_hset_other _ _ _ _ (hket et het),
              hstat_hremove_other _ _ _ (hkef ef hef)]
            exact hpk
      by_cases hd : (hstat h ⟨dirnameData et.data⟩).isSome = true
      · simp only [hd, if_true]
        exact hpk h hk
      · simp only [hd, Bool.false_eq_true, if_false]
        apply hpk
        have hdk : k ≠ (⟨dirnameData et.data⟩ : String) := by
          intro hcontra
          apply hd
          rw [← hcontra, hk]
          rfl
        rw [hstat_hset_other _ _ _ _ hdk]
        exact hk

theorem copyup_rename_spec (st : FuseState) (h : HostFS) (src dst : String)
    (b : StatData) (ef : String)
    (hro : st.readonly = false)
    (hlf : hstat (ensure_parent_directory st.owner_uid st.owner_gid h
      (get_local_path st dst)) (get_local_path st src) = none)
    (hef : get_external_path st src = some ef)
    (hb : hstat (ensure_parent_directory st.owner_uid st.owner_gid h
      (get_local_path st dst)) ef = some b)
    (huid : st.owner_uid ≠ 0)
    (hne1 : ef ≠ get_local_path st src)
    (hne2 : get_local_path st dst ≠ ef)
    (hne3 : ∀ et, get_external_path st dst = some et →
      get_local_path st dst ≠ et) :
    (dmsa_rename st h src dst).1 = 0 ∧
    hstat (dmsa_rename st h src dst).2 (get_local_path st dst) =
      some { mkFileStat b.st_mode b.content with
             st_uid := st.owner_uid, st_gid := st.owner_gid } := by
  set lf := get_local_path st src with hlfdef
  set lt := get_local_path st dst with hltdef
  set h1 := ensure_parent_directory st.owner_uid st.owner_gid h lt with h1def
  set h2 := ensure_parent_directory st.owner_uid st.owner_gid h1 lf with h2def
  have hb2 : hstat h2 ef = some b := hstat_ensure_parent _ _ _ _ _ b hb
  set h3 := fix_ownership st.owner_uid st.owner_gid
    (copy_file h2 ef lf b.st_mode) lf with h3def
  have hcopy : hstat (copy_file h2 ef lf b.st_mode) lf =
      some (mkFileStat b.st_mode b.content) := copy_file_spec _ _ _ _ b hb2
  set s0 : StatData := { mkFileStat b.st_mode b.content with
      st_uid := st.owner_uid, st_gid := st.owner_gid } with hs0def
  have hfix : hstat h3 lf = some s0 := by
    rw [h3def]
    exact hstat_fix_ownership_self _ _ _ _ _ hcopy huid
  have hren1 : host_rename h3 lf lt = Except.ok (hset (hremove h3 lf) lt s0) := by
    unfold host_rename
    rw [hfix]
  set h4 := hset (hremove h3 lf) lt s0 with h4def
  have hlt4 : hstat h4 lt = some s0 := by
    rw [h4def]
    exact hstat_hset_self _ _ _
  have hrename : dmsa_rename st h src dst =
      (0, rename_external_phase st h4 src dst) := by
    simp only [dmsa_rename, hro, Bool.false_eq_true, if_false, ← hltdef,
      ← hlfdef, ← h1def, hlf, Option.isSome_none, hef, hb, ← h2def, ← h3def,
      hren1, ← h4def]
  rw [hrename]
  refine ⟨rfl, ?_⟩
  apply rename_external_phase_preserves st h4 src dst lt s0 hlt4
  · intro ef2 hef2
    rw [hef] at hef2
    have : ef2 = ef := (Option.some.inj hef2).symm
    rw [this]
    exact hne2
  · exact hne3

/-- C8 (amended): every copy-up site streams the external bytes into the
local tier through the 8 KiB chunk loop with truncate-on-open and leaves
the external source bytes in place, but the three sites differ on mode
and ownership: the open-for-write site creates the local copy with fixed
mode 0644 and leaves ownership as created by the root process; the
truncate site preserves the backing mode but also leaves ownership as
created; only the rename site both preserves the backing mode and fixes
ownership to the mount owner (the rename handler afterwards also renames
the external copy best-effort). -/
theorem C8_copy_up :
    (∀ content : List Nat, copyChunks content = content)
    ∧ (∀ (st : FuseState) (h : HostFS) (p : String) (b : StatData)
        (flags : OpenFlags) (ep : String),
        st.index_ready = true → path_depth p ≤ MAX_PATH_DEPTH →
        st.open_count < MAX_CONCURRENT_OPENS → is_evicting st p = false →
        hstat h (get_local_path st p) = none →
        get_external_path st p = some ep → hstat h ep = some b →
        wantsWrite flags = true → flags.o_trunc = false →
        ep ≠ get_local_path st p →
        (dmsa_open st h p flags).1 = 0 ∧
        hstat (dmsa_open st h p flags).2.2.1 (get_local_path st p) =
          some (mkFileStat 0o644 b.content) ∧
        (mkFileStat 0o644 b.content).st_mode = S_IFREG ||| 0o644 ∧
        (mkFileStat 0o644 b.content).st_uid = PROC_UID ∧
        hstat (dmsa_open st h p flags).2.2.1 ep = some b)
    ∧ (∀ (st : FuseState) (h : HostFS) (p : String) (b : StatData)
        (size : Nat) (ep : String),
        st.readonly = false →
        syncing_files_contains st.syncing_files p = false →
        hstat h (get_local_path st p) = none →
        get_external_path st p = some ep → hstat h ep = some b →
        ep ≠ get_local_path st p →
        (dmsa_truncate st h p size).1 = 0 ∧
        hstat (dmsa_truncate st h p size).2 (get_local_path st p) =
          some { mkFileStat b.st_mode b.content with
                 content := truncContent b.content size, st_size := size } ∧
        (mkFileStat b.st_mode b.content).st_mode =
          S_IFREG ||| (b.st_mode &&& 0o7777) ∧
        (mkFileStat b.st_mode b.content).st_uid = PROC_UID ∧
        hstat (dmsa_truncate st h p size).2 ep = some b)
    ∧ (∀ (st : FuseState) (h : HostFS) (src dst : String) (b : StatData)
        (ef : String),
        st.readonly = false →
        hstat (ensure_parent_directory st.owner_uid st.owner_gid h
          (get_local_path st dst)) (get_local_path st src) = none →
        get_external_path st src = some ef →
        hstat (ensure_parent_directory st.owner_uid st.owner_gid h
          (get_local_path st dst)) ef = some b →
        st.owner_uid ≠ 0 →
        ef ≠ get_local_path st src →
        get_local_path st dst ≠ ef →
        (∀ et, get_external_path st dst = some et →
          get_local_path st dst ≠ et) →
        (dmsa_rename st h src dst).1 = 0 ∧
        hstat (dmsa_rename st h src dst).2 (get_local_path st dst) =
          some { mkFileStat b.st_mode b.content with
                 st_uid := st.owner_uid, st_gid := st.owner_gid }) := by
  refine ⟨copyChunks_eq, ?_, ?_, ?_⟩
  · intro st h p b flags ep h1 h2 h3 h4 h5 h6 h7 h8 h9 h10
    exact copyup_open_spec st h p b flags ep h1 h2 h3 h4 h5 h6 h7 h8 h9 h10
  · intro st h p b size ep h1 h2 h3 h4 h5 h6
    exact copyup_truncate_spec st h p b size ep h1 h2 h3 h4 h5 h6
  · intro st h src dst b ef h1 h2 h3 h4 h5 h6 h7 h8
    exact copyup_rename_spec st h src dst b ef h1 h2 h3 h4 h5 h6 h7 h8

/-- C8 counterexample fixture: `/doc` exists only in the external tier,
with mode 0755. -/
def c8H : HostFS := ⟨[("/ext/doc", exFileExec)]⟩

/-- C8 counterexample: on open-for-write copy-up the local copy is
created with mode 0644 although the backing mode 0755 is known, and its
ownership is left at the creating process (uid 0), not the mount owner
(501) — contradicting the claim that copy-up preserves the backing mode
and fixes ownership to the mount owner. -/
theorem C8_counterexample :
    (dmsa_open exSt c8H "/doc" ⟨false, true, false, false⟩).1 = 0 ∧
    (hstat (dmsa_open exSt c8H "/doc" ⟨false, true, false, false⟩).2.2.1
      (get_local_path exSt "/doc")).map StatData.st_uid = some PROC_UID ∧
    (hstat (dmsa_open exSt c8H "/doc" ⟨false, true, false, false⟩).2.2.1
      (get_local_path exSt "/doc")).map StatData.st_uid ≠ some exSt.owner_uid ∧
    (hstat (dmsa_open exSt c8H "/doc" ⟨false, true, false, false⟩).2.2.1
      (get_local_path exSt "/doc")).map
        (fun s => s.st_mode &&& 0o7777) = some 0o644 ∧
    (hstat c8H "/ext/doc").map (fun s => s.st_mode &&& 0o7777) = some 0o755 := by
  decide

/-- C8 witness: the three amended site conclusions at concrete states. -/
theorem C8_copy_up_witness :
    ((dmsa_open exSt c8H "/doc" ⟨false, true, false, false⟩).1 = 0 ∧
     hstat (dmsa_open exSt c8H "/doc" ⟨false, true, false, false⟩).2.2.1
       (get_local_path exSt "/doc") = some (mkFileStat 0o644 exFileExec.content) ∧
     (mkFileStat 0o644 exFileExec.content).st_mode = S_IFREG ||| 0o644 ∧
     (mkFileStat 0o644 exFileExec.content).st_uid = PROC_UID ∧
     hstat (dmsa_open exSt c8H "/doc" ⟨false, true, false, false⟩).2.2.1
       "/ext/doc" = some exFileExec)
    ∧ ((dmsa_truncate exSt c8H "/doc" 1).1 = 0 ∧
     hstat (dmsa_truncate exSt c8H "/doc" 1).2 (get_local_path exSt "/doc") =
       some { mkFileStat exFileExec.st_mode exFileExec.content with
              content := truncContent exFileExec.content 1, st_size := 1 } ∧
     (mkFileStat exFileExec.st_mode exFileExec.content).st_mode =
       S_IFREG ||| (exFileExec.st_mode &&& 0o7777) ∧
     (mkFileStat exFileExec.st_mode exFileExec.content).st_uid = PROC_UID ∧
     hstat (dmsa_truncate exSt c8H "/doc" 1).2 "/ext/doc" = some exFileExec)
    ∧ ((dmsa_rename exSt c8H "/doc" "/doc2").1 = 0 ∧
     hstat (dmsa_rename exSt c8H "/doc" "/doc2").2 (get_local_path exSt "/doc2") =
       some { mkFileStat exFileExec.st_mode exFileExec.content with
              st_uid := exSt.owner_uid, st_gid := exSt.owner_gid }) :=
  ⟨C8_copy_up.2.1 exSt c8H "/doc" exFileExec ⟨false, true, false, false⟩
     "/ext/doc" (by decide) (by decide) (by decide) (by decide) (by decide)
     (by decide) (by decide) (by decide) (by decide) (by decide),
   C8_copy_up.2.2.1 exSt c8H "/doc" exFileExec 1 "/ext/doc" (by decide)
     (by decide) (by decide) (by decide) (by decide) (by decide),
   C8_copy_up.2.2.2 exSt c8H "/doc" "/doc2" exFileExec "/ext/doc" (by decide)
     (by decide) (by decide) (by decide) (by decide) (by decide) (by decide)
     (by
       intro et het
       have h2 : get_external_path exSt "/doc2" = some "/ext/doc2" := by decide
       rw [h2] at het
       have h3 : et = "/ext/doc2" := (Option.some.inj het).symm
       rw [h3]
       decide)⟩

/-! ## C9: readdir entry cap -/

theorem readdirStep_length (pend : List String) (path : String)
    (acc : List String) (e : String) (hacc : acc.length ≤ MAX_READDIR_ENTRIES) :
    (readdirStep pend path acc e).length ≤ MAX_READDIR_ENTRIES := by
  unfold readdirStep
  by_cases h1 : (e == "." || e == "..") = true
  · simp [h1, hacc]
  · have hb1 : (e == "." || e == "..") = false := by simpa using h1
    simp only [hb1, Bool.false_eq_true, if_false]
    by_cases h2 : should_exclude e = true
    · simp [h2, hacc]
    · have hb2 : should_exclude e = false := by simpa using h2
      simp only [hb2, Bool.false_eq_true, if_false]
      by_cases h3 : pending_delete_contains pend (buildVPath path e) = true
      · simp [h3, hacc]
      · have hb3 : pending_delete_contains pend (buildVPath path e) = false := by
          simpa using h3
        simp only [hb3, Bool.false_eq_true, if_false]
        by_cases h4 : acc.contains e = true
        · have hmem : e ∈ acc := by simpa using h4
          simp [hmem, hacc]
        · have hb4 : acc.contains e = false := by simpa using h4
          simp only [hb4, Bool.false_eq_true, if_false]
          by_cases h5 : acc.length < MAX_READDIR_ENTRIES
          · simp only [if_pos h5, List.length_append, List.length_singleton]
            omega
          · simp [if_neg h5, hacc]

theorem foldl_readdirStep_length (pend : List String) (path : String) :
    ∀ (es acc : List String), acc.length ≤ MAX_READDIR_ENTRIES →
      (es.foldl (readdirStep pend path) acc).length ≤ MAX_READDIR_ENTRIES := by
  intro es
  induction es with
  | nil => intro acc hacc; simpa using hacc
  | cons e es ih =>
    intro acc hacc
    rw [List.foldl_cons]
    exact ih _ (readdirStep_length pend path acc e hacc)

theorem readdirStep_full (pend : List String) (path : String)
    (acc : List String) (e : String)
    (hacc : acc.length = MAX_READDIR_ENTRIES) :
    readdirStep pend path acc e = acc := by
  unfold readdirStep
  have h5 : ¬ (acc.length < MAX_READDIR_ENTRIES) := by omega
  by_cases h1 : (e == "." || e == "..") = true
  · simp [h1]
  · have hb1 : (e == "." || e == "..") = false := by simpa using h1
    simp only [hb1, Bool.false_eq_true, if_false]
    by_cases h2 : should_exclude e = true
    · simp [h2]
    · have hb2 : should_exclude e = false := by simpa using h2
      simp only [hb2, Bool.false_eq_true, if_false]
      by_cases h3 : pending_delete_contains pend (buildVPath path e) = true
      · simp [h3]
      · have hb3 : pending_delete_contains pend (buildVPath path e) = false := by
          simpa using h3
        simp only [hb3, Bool.false_eq_true, if_false]
        by_cases h4 : acc.contains e = true
        · have hmem : e ∈ acc := by simpa using h4
          simp [hmem]
        · have hb4 : acc.contains e = false := by simpa using h4
          simp only [hb4, Bool.false_eq_true, if_false, if_neg h5]

/-- C9: on a ready mount, `readdir` always succeeds and emits at most
8192 entry names besides `.` and `..`; once the dedup table holds 8192
unique names, every further directory entry is silently dropped (the
merge step is the identity on a full table). -/
theorem C9_readdir_cap (st : FuseState) (h : HostFS) (p : String)
    (hready : st.index_ready = true)
    (hdepth : path_depth p ≤ MAX_PATH_DEPTH) :
    (∃ l, dmsa_readdir st h p = Except.ok l ∧
      l.length ≤ MAX_READDIR_ENTRIES + 2) ∧
    (∀ (acc : List String) (e : String), acc.length = MAX_READDIR_ENTRIES →
      readdirStep st.pending_delete p acc e = acc) := by
  constructor
  · have hdp : ¬ (MAX_PATH_DEPTH < path_depth p) := by omega
    have hnr : (!st.index_ready) = false := by rw [hready]; rfl
    simp only [dmsa_readdir, if_neg hdp, hnr, Bool.false_eq_true, if_false]
    refine ⟨_, rfl, ?_⟩
    simp only [List.length_cons]
    have := foldl_readdirStep_length st.pending_delete p
      (dirEntries h (get_local_path st p) ++
        (match get_external_path st p with
         | some ep => dirEntries h ep
         | none => [])) [] (by simp)
    omega
  · intro acc e hacc
    exact readdirStep_full st.pending_delete p acc e hacc

/-- C9 witness: the cap conclusions at the concrete example state. -/
theorem C9_readdir_cap_witness :
    (∃ l, dmsa_readdir exSt exH "/" = Except.ok l ∧
      l.length ≤ MAX_READDIR_ENTRIES + 2) ∧
    (∀ (acc : List String) (e : String), acc.length = MAX_READDIR_ENTRIES →
      readdirStep exSt.pending_delete "/" acc e = acc) :=
  C9_readdir_cap exSt exH "/" (by decide) (by decide)

/-! ## C10: the not-found open leaks its slot -/

/-- C10: with the mount ready and a free slot, opening a path that
resolves in neither tier with flags that imply neither create nor write
returns not-found after the slot counter has been incremented, and the
call leaves the counter incremented (the slot is never released), with
the host filesystem untouched. -/
theorem C10_open_slot_leak (st : FuseState) (h : HostFS) (p : String)
    (flags : OpenFlags)
    (hready : st.index_ready = true)
    (hdepth : path_depth p ≤ MAX_PATH_DEPTH)
    (hslot : st.open_count < MAX_CONCURRENT_OPENS)
    (hres : resolve_actual_path h st p = none)
    (hc : flags.o_creat = false) (hw : flags.o_wronly = false)
    (hr : flags.o_rdwr = false) :
    (dmsa_open st h p flags).1 = -ENOENT ∧
    (dmsa_open st h p flags).2.1.open_count = st.open_count + 1 ∧
    (dmsa_open st h p flags).2.2.1 = h := by
  have hdp : ¬ (MAX_PATH_DEPTH < path_depth p) := by omega
  have hnr : (!st.index_ready) = false := by rw [hready]; rfl
  have hacq : acquire_open_slot st.open_count = some (st.open_count + 1) := by
    unfold acquire_open_slot
    rw [if_neg (Int.not_le.mpr hslot)]
  have hfl : (flags.o_creat || flags.o_wronly || flags.o_rdwr) = false := by
    rw [hc, hw, hr]
    rfl
  simp only [dmsa_open, if_neg hdp, hnr, Bool.false_eq_true, if_false, hacq,
    hres, hfl]
  refine ⟨?_, ?_, ?_⟩ <;> trivial

/-- C10 witness: opening the absent `/nope` read-only at the example
state fails with not-found yet leaves the counter incremented. -/
theorem C10_open_slot_leak_witness :
    (dmsa_open exSt exH "/nope" ⟨false, false, false, false⟩).1 = -ENOENT ∧
    (dmsa_open exSt exH "/nope" ⟨false, false, false, false⟩).2.1.open_count =
      exSt.open_count + 1 ∧
    (dmsa_open exSt exH "/nope" ⟨false, false, false, false⟩).2.2.1 = exH :=
  C10_open_slot_leak exSt exH "/nope" ⟨false, false, false, false⟩ (by decide)
    (by decide) (by decide) (by decide) (by decide) (by decide) (by decide)

end DMSA
